import Mathlib

/-!
Shallow embedding of the constant-product AMM program
(`src/defi/amm/native/program/src/processor.rs`) and of the swap-pool variant
(`src/defi/swap_program_solana_pirate_bootcamp/native/program/src/processor.rs`),
together with theorems settling the specification claims.

Modelling conventions:
* Machine integers (`u64`, `u128`) are `Nat` with an explicit `% 2^w` exactly at
  the points where the Rust source performs unchecked (wrapping in release
  builds) arithmetic or an `as` cast; `checked_mul` / `checked_add` /
  `checked_sub` / `u64::try_from` become explicit range tests that return the
  source's error.  Handler arguments denote `u64` values; theorems state the
  `< 2^64` bounds explicitly where they matter.
* Fallible handlers return `Except Err _`; the checks appear in the source
  order.  A handler that fails leaves every account untouched (the host
  transaction model is all-or-nothing), which the embedding renders by
  returning a new state only on success.
* Public keys are an inductive type whose constructors model the program's
  deterministic address derivations (`find_program_address` /
  `create_program_address` / `get_associated_token_address`) as injective
  constructions; the byte-lexicographic `Ord` on keys used by the mint sorting
  is abstracted by an injective encoding into `Nat`.
* The token-ledger collaborator (the SPL token program) is not part of the
  repository's sources.  Its `transfer` / `mint_to` / `burn` semantics are
  modelled from the spec (section 6: mint/transfer/burn with fixed-point
  balances): a transfer needs a sufficient source balance and an
  unsaturated destination, `mint_to` grows supply and destination within
  `u64`, `burn` needs a sufficient owner balance and supply.
-/

namespace AmmModel

/-- Bound of `u64` values. -/
def U64 : Nat := 2 ^ 64

/-- Bound of `u128` values. -/
def U128 : Nat := 2 ^ 128

/-- Public keys.  External wallet/mint keys are `ext n`; the program's trusted
addresses are modelled by constructors mirroring their derivation seeds, so
derivation is injective by construction (the collision-freeness assumption of
program-derived addressing). -/
inductive Pubkey where
  | ext : Nat → Pubkey
  | poolPda : Pubkey → Pubkey → Nat → Nat → Pubkey
  | lpPda : Pubkey → Nat → Pubkey
  | ata : Pubkey → Pubkey → Pubkey
  | progToken : Pubkey
  | progAta : Pubkey
  | progSys : Pubkey
deriving DecidableEq

/-- Injective encoding of keys into `Nat`, used only to model the total
byte-lexicographic order that `mint_a.key < mint_b.key` compares with. -/
def Pubkey.toCode : Pubkey → Nat
  | .ext n => Nat.pair 0 n
  | .poolPda lo hi fee bump =>
      Nat.pair 1 (Nat.pair lo.toCode (Nat.pair hi.toCode (Nat.pair fee bump)))
  | .lpPda p bump => Nat.pair 2 (Nat.pair p.toCode bump)
  | .ata owner mint => Nat.pair 3 (Nat.pair owner.toCode mint.toCode)
  | .progToken => Nat.pair 4 0
  | .progAta => Nat.pair 5 0
  | .progSys => Nat.pair 6 0

/-- Smaller of two keys: models `if mint_a.key < mint_b.key` (processor.rs:92). -/
def minKey (a b : Pubkey) : Pubkey := if a.toCode < b.toCode then a else b

/-- Larger of two keys (the other component of the sorted pair). -/
def maxKey (a b : Pubkey) : Pubkey := if a.toCode < b.toCode then b else a

/-- Errors.  `ProgramError`, `AmmError` and `SwapProgramError` variants and the
token-ledger failures are flattened into one enumeration (the source converts
all of them into `ProgramError` codes at the boundary). -/
inductive Err where
  | missingRequiredSignature
  | incorrectProgramId
  | invalidSeeds
  | invalidInstructionData
  | uninitializedAccount
  | arithmeticOverflow
  | divByZero
  | insufficientFunds
  | tokenBalanceOverflow
  | tokenSupplyUnderflow
  | identicalMints
  | poolAddressMismatch
  | vaultAddressMismatch
  | mintAddressMismatch
  | lpMintAddressMismatch
  | zeroLiquidityAmount
  | feeTooHigh
  | zeroSwapAmount
  | slippageExceed
  | invalidSwapZeroAmount
  | invalidSwapMatchingAssets
deriving DecidableEq

/-- Pool record (state.rs): two mint keys, two `u64` reserves, `u16` fee in
basis points, `u8` bump. -/
structure LiquidityPool where
  mintA : Pubkey
  mintB : Pubkey
  reserveA : Nat
  reserveB : Nat
  feeBps : Nat
  bump : Nat
deriving DecidableEq

/-- Bump nonce returned by the modelled `find_program_address`.  The concrete
value is irrelevant; the code only threads it back into
`create_program_address`. -/
def canonicalBump : Nat := 255

/-- Address returned by `create_program_address` for the pool seeds
`["pool", mint_lo, mint_hi, fee_bps_le, [bump]]`. -/
def createPoolAddress (lo hi : Pubkey) (feeBps bump : Nat) : Pubkey :=
  .poolPda lo hi feeBps bump

/-- Pool address and bump from `find_program_address` (processor.rs:98). -/
def findPoolAddress (lo hi : Pubkey) (feeBps : Nat) : Pubkey × Nat :=
  (createPoolAddress lo hi feeBps canonicalBump, canonicalBump)

/-- LP-mint address from `find_program_address(["lp_mint", pool])`
(processor.rs:115). -/
def findLpMintAddress (pool : Pubkey) : Pubkey × Nat :=
  (.lpPda pool canonicalBump, canonicalBump)

/-- Associated-token-account derivation `get_associated_token_address`. -/
def getAssociatedTokenAddress (owner mint : Pubkey) : Pubkey :=
  .ata owner mint

/-- Wrapping `u64` subtraction: models release-mode `-=` on `u64` for a
subtrahend below `2^64` (processor.rs:734, 737). -/
def wsub64 (a b : Nat) : Nat := (a + U64 - b) % U64

/-- Swap price computation of `process_swap` (processor.rs:682-689), as `u128`
arithmetic: `amount_in_post_fee = amount_in * (10_000 - fee_bps)`, then
`amount_out = reserve_out * amount_in_post_fee / (reserve_in * 10_000 +
amount_in_post_fee) as u64`.  The multiplications are unchecked `u128`
multiplications, hence the explicit `% U128`; the `as u64` cast is the final
`% U64`.  (`10_000 - fee_bps` never underflows for a pool created by this
program, since `process_create_pool` rejects `fee_bps > 10_000`.) -/
def swapAmountOut (reserveIn reserveOut feeBps amountIn : Nat) : Nat :=
  let amountInPostFee := amountIn * (10000 - feeBps) % U128
  reserveOut * amountInPostFee % U128
    / ((reserveIn * 10000 + amountInPostFee) % U128) % U64

/-- Amount of mint A taken by `process_provide_liquidity`
(processor.rs:375-390): all of `amount_a_desired` when the proportional
`b_needed` fits below `amount_b_desired`, otherwise the proportional
`amount_b_desired * reserve_a / reserve_b`. -/
def provideTakeA (rA rB aDes bDes : Nat) : Nat :=
  if aDes * rB / rA ≤ bDes then aDes else bDes * rA / rB

/-- Amount of mint B taken by `process_provide_liquidity`: the proportional
`b_needed` when it fits below `amount_b_desired`, otherwise all of
`amount_b_desired`. -/
def provideTakeB (rA rB aDes bDes : Nat) : Nat :=
  if aDes * rB / rA ≤ bDes then aDes * rB / rA else bDes

/-- Exact (`u128`) withdrawal payout of one side before the `as u64` cast
(processor.rs:549-552): `amount_lp_in * reserve / total_lp`. -/
def withdrawOut (amountLpIn reserve totalLp : Nat) : Nat :=
  amountLpIn * reserve / totalLp

/-- Newton iteration for the integer square root, with explicit fuel so that it
is structurally recursive (and hence evaluates inside the kernel). -/
def isqrtIter (n : Nat) : Nat → Nat → Nat
  | 0, guess => guess
  | fuel + 1, guess =>
    let next := (guess + n / guess) / 2
    if next < guess then isqrtIter n fuel next else guess

/-- Floor integer square root; models the `integer_sqrt` crate used at
processor.rs:263-266 (a dependency outside the repository's sources, whose
documented semantics is the floor square root).  Proven equal to `Nat.sqrt`
in `integerSqrt_eq` below. -/
def integerSqrt (n : Nat) : Nat :=
  if n ≤ 1 then n else isqrtIter n (n / 2) (n / 2)

theorem isqrtIter_eq (n : Nat) : ∀ fuel guess, guess ≤ fuel →
    isqrtIter n fuel guess = Nat.sqrt.iter n guess := by
  intro fuel
  induction fuel with
  | zero =>
    intro guess hg
    interval_cases guess
    unfold Nat.sqrt.iter
    simp [isqrtIter]
  | succ m ih =>
    intro guess hg
    unfold Nat.sqrt.iter
    simp only [isqrtIter]
    split
    · next h => rw [ih _ (by omega)]
    · rfl

theorem integerSqrt_eq (n : Nat) : integerSqrt n = Nat.sqrt n := by
  unfold integerSqrt Nat.sqrt
  split
  · rfl
  · exact isqrtIter_eq n (n / 2) (n / 2) le_rfl

end AmmModel

deriving instance DecidableEq for Except

namespace AmmModel

/-- Accounts supplied to `process_create_pool` (processor.rs:70-82).  The user
token accounts `user_ata_a` / `user_ata_b` / `user_ata_lp` carry no address
check in the source and are represented only by their balances. -/
structure CreatePoolAccounts where
  userIsSigner : Bool
  user : Pubkey
  pool : Pubkey
  mintA : Pubkey
  mintB : Pubkey
  vaultA : Pubkey
  vaultB : Pubkey
  mintLp : Pubkey
  tokenProg : Pubkey
  ataProg : Pubkey
  sysProg : Pubkey
deriving DecidableEq

/-- Post-state of a successful `process_create_pool`: the persisted pool
record, the freshly minted LP amount and supply, and the final balances of
the user's token accounts and the two vaults. -/
structure CreatePoolResult where
  pool : LiquidityPool
  lpMinted : Nat
  lpSupply : Nat
  userABal : Nat
  userBBal : Nat
  userLpBal : Nat
  vaultABal : Nat
  vaultBBal : Nat
deriving DecidableEq

/-- Embedding of `process_create_pool` (processor.rs:61-297).  Checks appear in
source order; account creation (pool record, vaults, LP mint, user LP ATA) is
modelled as always succeeding, the created vaults and LP mint starting at
balance/supply `0` (they are brand new accounts).  Token moves follow the
spec-modelled token-ledger semantics described in the file header. -/
def processCreatePool (acc : CreatePoolAccounts) (userABal userBBal : Nat)
    (amountA amountB feeBps : Nat) : Except Err CreatePoolResult :=
  if ¬ acc.userIsSigner then .error .missingRequiredSignature
  else if acc.mintA = acc.mintB then .error .identicalMints
  else if acc.pool ≠ (findPoolAddress (minKey acc.mintA acc.mintB)
      (maxKey acc.mintA acc.mintB) feeBps).1 then
    .error .poolAddressMismatch
  else if acc.vaultA ≠ getAssociatedTokenAddress acc.pool acc.mintA then
    .error .vaultAddressMismatch
  else if acc.vaultB ≠ getAssociatedTokenAddress acc.pool acc.mintB then
    .error .vaultAddressMismatch
  else if acc.mintLp ≠ (findLpMintAddress acc.pool).1 then
    .error .lpMintAddressMismatch
  else if acc.tokenProg ≠ .progToken then .error .incorrectProgramId
  else if acc.ataProg ≠ .progAta then .error .incorrectProgramId
  else if acc.sysProg ≠ .progSys then .error .incorrectProgramId
  else if amountA = 0 ∨ amountB = 0 then .error .zeroLiquidityAmount
  else if 10000 < feeBps then .error .feeTooHigh
  else if userABal < amountA then .error .insufficientFunds
  else if U64 ≤ amountA then .error .tokenBalanceOverflow
  else if userBBal < amountB then .error .insufficientFunds
  else if U64 ≤ amountB then .error .tokenBalanceOverflow
  else if U128 ≤ amountA * amountB then .error .invalidInstructionData
  else if U64 ≤ integerSqrt (amountA * amountB) % U64 then
    .error .tokenBalanceOverflow
  else
    .ok { pool := { mintA := acc.mintA, mintB := acc.mintB,
                    reserveA := amountA, reserveB := amountB,
                    feeBps := feeBps, bump := canonicalBump },
          lpMinted := integerSqrt (amountA * amountB) % U64,
          lpSupply := integerSqrt (amountA * amountB) % U64,
          userABal := userABal - amountA, userBBal := userBBal - amountB,
          userLpBal := integerSqrt (amountA * amountB) % U64,
          vaultABal := amountA, vaultBBal := amountB }

/-- Accounts supplied to `process_provide_liquidity` (processor.rs:309-319);
user token accounts are represented only by balances (no address check in the
source). -/
structure ProvideAccounts where
  userIsSigner : Bool
  pool : Pubkey
  mintA : Pubkey
  mintB : Pubkey
  vaultA : Pubkey
  vaultB : Pubkey
  mintLp : Pubkey
deriving DecidableEq

/-- Post-state of a successful `process_provide_liquidity`. -/
structure ProvideResult where
  pool : LiquidityPool
  lpMinted : Nat
  lpSupply : Nat
  userABal : Nat
  userBBal : Nat
  userLpBal : Nat
  vaultABal : Nat
  vaultBBal : Nat
deriving DecidableEq

/-- LP amount minted by `process_provide_liquidity` (processor.rs:396-401):
`lp_from_a = take_a * total_lp / reserve_a` and
`lp_from_b = take_b * total_lp / reserve_b` (unchecked `u128`
multiplications, hence the `% U128`), then the truncating `as u64` cast of
their minimum. -/
def provideLpAmount (pool : LiquidityPool) (lpSupply takeA takeB : Nat) : Nat :=
  min (takeA * lpSupply % U128 / pool.reserveA)
    (takeB * lpSupply % U128 / pool.reserveB) % U64

/-- Tail of `process_provide_liquidity` from the slippage check on
(processor.rs:392-460), shared by the two intake branches: slippage guard, LP
amount via `provideLpAmount`, `u64::try_from` narrowing of the takes
(processor.rs:403-404), the two transfers, the LP mint and the
`checked_add` reserve updates.  The `reserve_b = 0` guard models the `u128`
division-by-zero panic in `lp_from_b` (a panic aborts the instruction). -/
def provideTail (pool : LiquidityPool)
    (lpSupply userABal userBBal userLpBal vaultABal vaultBBal : Nat)
    (takeA takeB amountAMin amountBMin : Nat) : Except Err ProvideResult :=
  if takeA < amountAMin ∨ takeB < amountBMin then .error .slippageExceed
  else if pool.reserveB = 0 then .error .divByZero
  else if U64 ≤ takeA then .error .arithmeticOverflow
  else if U64 ≤ takeB then .error .arithmeticOverflow
  else if userABal < takeA then .error .insufficientFunds
  else if U64 ≤ vaultABal + takeA then .error .tokenBalanceOverflow
  else if userBBal < takeB then .error .insufficientFunds
  else if U64 ≤ vaultBBal + takeB then .error .tokenBalanceOverflow
  else if U64 ≤ lpSupply + provideLpAmount pool lpSupply takeA takeB then
    .error .tokenBalanceOverflow
  else if U64 ≤ userLpBal + provideLpAmount pool lpSupply takeA takeB then
    .error .tokenBalanceOverflow
  else if U64 ≤ pool.reserveA + takeA then .error .arithmeticOverflow
  else if U64 ≤ pool.reserveB + takeB then .error .arithmeticOverflow
  else
    .ok { pool := { pool with reserveA := pool.reserveA + takeA,
                              reserveB := pool.reserveB + takeB },
          lpMinted := provideLpAmount pool lpSupply takeA takeB,
          lpSupply := lpSupply + provideLpAmount pool lpSupply takeA takeB,
          userABal := userABal - takeA, userBBal := userBBal - takeB,
          userLpBal := userLpBal + provideLpAmount pool lpSupply takeA takeB,
          vaultABal := vaultABal + takeA, vaultBBal := vaultBBal + takeB }

/-- Embedding of `process_provide_liquidity` (processor.rs:299-461): signer
check, recomputation of the pool address from the stored record, mint / vault
/ LP-mint address checks, zero-amount guard, then the proportional intake
computation with its `checked_mul` guards and `u128` division-by-zero panics
modelled explicitly, continuing in `provideTail`. -/
def processProvideLiquidity (pool : LiquidityPool) (acc : ProvideAccounts)
    (lpSupply userABal userBBal userLpBal vaultABal vaultBBal : Nat)
    (amountADesired amountBDesired amountAMin amountBMin : Nat) :
    Except Err ProvideResult :=
  if ¬ acc.userIsSigner then .error .missingRequiredSignature
  else if acc.pool ≠ createPoolAddress (minKey pool.mintA pool.mintB)
      (maxKey pool.mintA pool.mintB) pool.feeBps pool.bump then
    .error .poolAddressMismatch
  else if acc.mintA ≠ pool.mintA then .error .mintAddressMismatch
  else if acc.mintB ≠ pool.mintB then .error .mintAddressMismatch
  else if acc.vaultA ≠ getAssociatedTokenAddress acc.pool acc.mintA then
    .error .vaultAddressMismatch
  else if acc.vaultB ≠ getAssociatedTokenAddress acc.pool acc.mintB then
    .error .vaultAddressMismatch
  else if acc.mintLp ≠ (findLpMintAddress acc.pool).1 then
    .error .lpMintAddressMismatch
  else if amountADesired = 0 ∨ amountBDesired = 0 then
    .error .zeroLiquidityAmount
  else if U128 ≤ amountADesired * pool.reserveB then .error .arithmeticOverflow
  else if pool.reserveA = 0 then .error .divByZero
  else if amountADesired * pool.reserveB / pool.reserveA ≤ amountBDesired then
    provideTail pool lpSupply userABal userBBal userLpBal vaultABal vaultBBal
      amountADesired (amountADesired * pool.reserveB / pool.reserveA)
      amountAMin amountBMin
  else if U128 ≤ amountBDesired * pool.reserveA then .error .arithmeticOverflow
  else
    provideTail pool lpSupply userABal userBBal userLpBal vaultABal vaultBBal
      (amountBDesired * pool.reserveA / pool.reserveB) amountBDesired
      amountAMin amountBMin

/-- Accounts supplied to `process_withdraw_liquidity` (processor.rs:472-482). -/
structure WithdrawAccounts where
  userIsSigner : Bool
  pool : Pubkey
  mintA : Pubkey
  mintB : Pubkey
  vaultA : Pubkey
  vaultB : Pubkey
  mintLp : Pubkey
deriving DecidableEq

/-- Post-state of a successful `process_withdraw_liquidity`, including the two
paid-out amounts (after the `as u64` casts). -/
structure WithdrawResult where
  pool : LiquidityPool
  aOut : Nat
  bOut : Nat
  lpSupply : Nat
  userABal : Nat
  userBBal : Nat
  userLpBal : Nat
  vaultABal : Nat
  vaultBBal : Nat
deriving DecidableEq

/-- Tail of `process_withdraw_liquidity` from the slippage check on
(processor.rs:554-622), given the exact `u128` payouts: slippage guard, LP
burn, then the two vault transfers of the payouts after their `as u64` casts
(modelled by `% U64`, processor.rs:571-572) and the `checked_sub` reserve
updates. -/
def withdrawTail (pool : LiquidityPool)
    (lpSupply userABal userBBal userLpBal vaultABal vaultBBal : Nat)
    (amountLpIn amountAMin amountBMin aOut128 bOut128 : Nat) :
    Except Err WithdrawResult :=
  if aOut128 < amountAMin ∨ bOut128 < amountBMin then .error .slippageExceed
  else if userLpBal < amountLpIn then .error .insufficientFunds
  else if lpSupply < amountLpIn then .error .tokenSupplyUnderflow
  else if vaultABal < aOut128 % U64 then .error .insufficientFunds
  else if U64 ≤ userABal + aOut128 % U64 then .error .tokenBalanceOverflow
  else if vaultBBal < bOut128 % U64 then .error .insufficientFunds
  else if U64 ≤ userBBal + bOut128 % U64 then .error .tokenBalanceOverflow
  else if pool.reserveA < aOut128 % U64 then .error .arithmeticOverflow
  else if pool.reserveB < bOut128 % U64 then .error .arithmeticOverflow
  else
    .ok { pool := { pool with reserveA := pool.reserveA - aOut128 % U64,
                              reserveB := pool.reserveB - bOut128 % U64 },
          aOut := aOut128 % U64, bOut := bOut128 % U64,
          lpSupply := lpSupply - amountLpIn,
          userABal := userABal + aOut128 % U64, userBBal := userBBal + bOut128 % U64,
          userLpBal := userLpBal - amountLpIn,
          vaultABal := vaultABal - aOut128 % U64, vaultBBal := vaultBBal - bOut128 % U64 }

/-- Embedding of `process_withdraw_liquidity` (processor.rs:463-623): signer
and zero-LP guards, address checks, `total_lp = 0` guard, `checked_mul`
payout computation, then `withdrawTail`. -/
def processWithdrawLiquidity (pool : LiquidityPool) (acc : WithdrawAccounts)
    (lpSupply userABal userBBal userLpBal vaultABal vaultBBal : Nat)
    (amountLpIn amountAMin amountBMin : Nat) : Except Err WithdrawResult :=
  if ¬ acc.userIsSigner then .error .missingRequiredSignature
  else if amountLpIn = 0 then .error .zeroLiquidityAmount
  else if acc.pool ≠ createPoolAddress (minKey pool.mintA pool.mintB)
      (maxKey pool.mintA pool.mintB) pool.feeBps pool.bump then
    .error .poolAddressMismatch
  else if acc.mintA ≠ pool.mintA then .error .mintAddressMismatch
  else if acc.mintB ≠ pool.mintB then .error .mintAddressMismatch
  else if acc.vaultA ≠ getAssociatedTokenAddress acc.pool acc.mintA then
    .error .vaultAddressMismatch
  else if acc.vaultB ≠ getAssociatedTokenAddress acc.pool acc.mintB then
    .error .vaultAddressMismatch
  else if acc.mintLp ≠ (findLpMintAddress acc.pool).1 then
    .error .lpMintAddressMismatch
  else if lpSupply = 0 then .error .uninitializedAccount
  else if U128 ≤ amountLpIn * pool.reserveA then .error .arithmeticOverflow
  else if U128 ≤ amountLpIn * pool.reserveB then .error .arithmeticOverflow
  else
    withdrawTail pool lpSupply userABal userBBal userLpBal vaultABal vaultBBal
      amountLpIn amountAMin amountBMin
      (withdrawOut amountLpIn pool.reserveA lpSupply)
      (withdrawOut amountLpIn pool.reserveB lpSupply)

/-- Accounts supplied to `process_swap` (processor.rs:633-642).  Note that the
source never compares `vault_in` / `vault_out` / `user_ata_in` /
`user_ata_out` against any derivation; they only name the transfer
endpoints. -/
structure SwapAccounts where
  userIsSigner : Bool
  pool : Pubkey
  mintIn : Pubkey
  mintOut : Pubkey
  vaultIn : Pubkey
  vaultOut : Pubkey
  userAtaIn : Pubkey
  userAtaOut : Pubkey
deriving DecidableEq

/-- Post-state of a successful `process_swap`, including the computed output
amount. -/
structure SwapResult where
  pool : LiquidityPool
  amountOut : Nat
  userInBal : Nat
  userOutBal : Nat
  vaultInBal : Nat
  vaultOutBal : Nat
deriving DecidableEq

/-- Tail of `process_swap` from the slippage check on (processor.rs:691-743),
given the already computed output amount: slippage guard, the two transfers,
and the unchecked (wrapping) `u64` reserve updates, oriented by re-testing
`mint_in == pool_data.mint_a` exactly as the source does at
processor.rs:732. -/
def swapTail (pool : LiquidityPool) (acc : SwapAccounts)
    (userInBal userOutBal vaultInBal vaultOutBal : Nat)
    (amountIn minOut amountOut : Nat) : Except Err SwapResult :=
  if amountOut < minOut then .error .slippageExceed
  else if userInBal < amountIn then .error .insufficientFunds
  else if U64 ≤ vaultInBal + amountIn then .error .tokenBalanceOverflow
  else if vaultOutBal < amountOut then .error .insufficientFunds
  else if U64 ≤ userOutBal + amountOut then .error .tokenBalanceOverflow
  else if acc.mintIn = pool.mintA then
    .ok { pool := { pool with reserveA := (pool.reserveA + amountIn) % U64,
                              reserveB := wsub64 pool.reserveB amountOut },
          amountOut := amountOut,
          userInBal := userInBal - amountIn,
          userOutBal := userOutBal + amountOut,
          vaultInBal := vaultInBal + amountIn,
          vaultOutBal := vaultOutBal - amountOut }
  else
    .ok { pool := { pool with reserveA := wsub64 pool.reserveA amountOut,
                              reserveB := (pool.reserveB + amountIn) % U64 },
          amountOut := amountOut,
          userInBal := userInBal - amountIn,
          userOutBal := userOutBal + amountOut,
          vaultInBal := vaultInBal + amountIn,
          vaultOutBal := vaultOutBal - amountOut }

/-- Embedding of `process_swap` (processor.rs:625-744): signer and zero-amount
guards, pool-address recomputation from the two supplied mint keys, reserve
orientation by comparing `mint_in` with the stored `mint_a`, the fee-adjusted
constant-product price (`swapAmountOut`), then `swapTail`.  The `den = 0`
guard models the `u128` division-by-zero panic. -/
def processSwap (pool : LiquidityPool) (acc : SwapAccounts)
    (userInBal userOutBal vaultInBal vaultOutBal : Nat)
    (amountIn minOut : Nat) : Except Err SwapResult :=
  if ¬ acc.userIsSigner then .error .missingRequiredSignature
  else if amountIn = 0 then .error .zeroSwapAmount
  else if acc.pool ≠ createPoolAddress (minKey acc.mintIn acc.mintOut)
      (maxKey acc.mintIn acc.mintOut) pool.feeBps pool.bump then
    .error .poolAddressMismatch
  else if acc.mintIn = pool.mintA then
    if (pool.reserveA * 10000 + amountIn * (10000 - pool.feeBps) % U128) % U128 = 0 then
      .error .divByZero
    else
      swapTail pool acc userInBal userOutBal vaultInBal vaultOutBal amountIn minOut
        (swapAmountOut pool.reserveA pool.reserveB pool.feeBps amountIn)
  else
    if (pool.reserveB * 10000 + amountIn * (10000 - pool.feeBps) % U128) % U128 = 0 then
      .error .divByZero
    else
      swapTail pool acc userInBal userOutBal vaultInBal vaultOutBal amountIn minOut
        (swapAmountOut pool.reserveB pool.reserveA pool.feeBps amountIn)

end AmmModel

namespace PirateModel

open AmmModel

/-- Pool record of the swap-pool variant (its `state.rs`): a growable list of
asset mints and the bump. -/
structure PiratePool where
  assets : List Pubkey
  bump : Nat
deriving DecidableEq

/-- Observable state touched by the variant's swap instruction: the pool
record and the balances of the four token accounts it names. -/
structure PirateState where
  pool : PiratePool
  poolReceiveBal : Nat
  payerReceiveBal : Nat
  poolPayBal : Nat
  payerPayBal : Nat
deriving DecidableEq

/-- Accounts supplied to the variant's `process_swap` (its
processor.rs:189-198). -/
structure PirateSwapAccounts where
  pool : Pubkey
  receiveMint : Pubkey
  poolReceiveAta : Pubkey
  payerReceiveAta : Pubkey
  payMint : Pubkey
  poolPayAta : Pubkey
  payerPayAta : Pubkey
  payer : Pubkey
deriving DecidableEq

/-- Embedding of the variant's `process_swap` (its processor.rs:182-229): it
validates the four associated-token-account addresses, rejects a zero amount
and identical mints, and then returns success without transferring anything
or writing any account (the derived pool address is computed but never
compared).  On success the input state is returned unchanged. -/
def pirateProcessSwap (st : PirateState) (acc : PirateSwapAccounts)
    (amountToSwap : Nat) : Except Err PirateState :=
  if acc.poolReceiveAta ≠ getAssociatedTokenAddress acc.pool acc.receiveMint then
    .error .invalidSeeds
  else if acc.payerReceiveAta ≠ getAssociatedTokenAddress acc.payer acc.receiveMint then
    .error .invalidSeeds
  else if acc.poolPayAta ≠ getAssociatedTokenAddress acc.pool acc.payMint then
    .error .invalidSeeds
  else if acc.payerPayAta ≠ getAssociatedTokenAddress acc.payer acc.payMint then
    .error .invalidSeeds
  else if amountToSwap = 0 then .error .invalidSwapZeroAmount
  else if acc.receiveMint = acc.payMint then .error .invalidSwapMatchingAssets
  else .ok st

end PirateModel

namespace AmmModel

/-- Product of two `u64` values fits in `u128`. -/
theorem mul_lt_U128 {a b : Nat} (ha : a < U64) (hb : b < U64) : a * b < U128 := by
  have h := Nat.mul_lt_mul_of_lt_of_le ha (Nat.le_of_lt hb) (by decide)
  calc a * b ≤ a * b := le_rfl
  _ < U64 * U64 := h
  _ = U128 := by decide

/-- A proportional redemption bounded by the total supply pays out at most
the reserve. -/
theorem withdrawOut_le (lpIn R T : Nat) (h : lpIn ≤ T) (hT : 0 < T) :
    withdrawOut lpIn R T ≤ R := by
  unfold withdrawOut
  calc lpIn * R / T ≤ T * R / T :=
    Nat.div_le_div_right (Nat.mul_le_mul_right R h)
  _ = R := Nat.mul_div_cancel_left R hT

/-- For `u64`-sized takes and supply the `u128` products in
`provideLpAmount` do not wrap. -/
theorem provideLpAmount_eq (pool : LiquidityPool) (lpSupply takeA takeB : Nat)
    (hA : takeA < U64) (hB : takeB < U64) (hT : lpSupply < U64) :
    provideLpAmount pool lpSupply takeA takeB =
      min (takeA * lpSupply / pool.reserveA)
        (takeB * lpSupply / pool.reserveB) % U64 := by
  unfold provideLpAmount
  rw [Nat.mod_eq_of_lt (mul_lt_U128 hA hT), Nat.mod_eq_of_lt (mul_lt_U128 hB hT)]

/-- The swap denominator is nonzero (and unwrapped) whenever the input-side
reserve is positive and the operands are `u64`-sized. -/
theorem swapDen_ne_zero (rIn fee aIn : Nat) (hrIn : 0 < rIn)
    (hrIn64 : rIn < U64) (haIn : aIn < U64) :
    (rIn * 10000 + aIn * (10000 - fee) % U128) % U128 ≠ 0 := by
  have hF : aIn * (10000 - fee) < U128 := by
    have h1 : aIn * (10000 - fee) ≤ aIn * 10000 := Nat.mul_le_mul_left aIn (by omega)
    have h2 : aIn * 10000 < U64 * 10000 := (Nat.mul_lt_mul_right (by omega)).mpr haIn
    have : U64 * 10000 < U128 := by decide
    omega
  rw [Nat.mod_eq_of_lt hF]
  have h1 : aIn * (10000 - fee) ≤ aIn * 10000 := Nat.mul_le_mul_left aIn (by omega)
  have h2 : aIn * 10000 < U64 * 10000 := (Nat.mul_lt_mul_right (by omega)).mpr haIn
  have h3 : rIn * 10000 < U64 * 10000 := (Nat.mul_lt_mul_right (by omega)).mpr hrIn64
  have h4 : U64 * 10000 + U64 * 10000 < U128 := by decide
  have h5 : 0 < rIn * 10000 := Nat.mul_pos hrIn (by omega)
  rw [Nat.mod_eq_of_lt (by omega)]
  omega

/-- Concrete mint keys used by the witnesses, with `mintX` the smaller. -/
def mintX : Pubkey := .ext 1

/-- The second witness mint. -/
def mintY : Pubkey := .ext 2

/-- Derived pool address for the `(mintX, mintY, 30bps)` witness pool. -/
def poolKeyXY : Pubkey := .poolPda mintX mintY 30 canonicalBump

/-- Derived vault address for the mint-X side. -/
def vaultX : Pubkey := .ata poolKeyXY mintX

/-- Derived vault address for the mint-Y side. -/
def vaultY : Pubkey := .ata poolKeyXY mintY

/-- Derived LP-mint address of the witness pool. -/
def lpMintXY : Pubkey := .lpPda poolKeyXY canonicalBump

/-- Witness pool record: the spec's concrete scenario
(reserves 1000/4000, 30 bps). -/
def poolXY : LiquidityPool :=
  { mintA := mintX, mintB := mintY, reserveA := 1000, reserveB := 4000,
    feeBps := 30, bump := canonicalBump }

end AmmModel


namespace AmmModel

/-- Unfolding of `swapAmountOut` for `u64`-sized inputs: the post-fee amount
and the denominator are below `2^128`, so only the numerator's wrap and the
final cast remain. -/
theorem swapAmountOut_eq_unwrapped (rIn rOut fee aIn : Nat)
    (haIn : aIn < U64) (hrIn64 : rIn < U64) :
    swapAmountOut rIn rOut fee aIn =
      rOut * (aIn * (10000 - fee)) % U128
        / (rIn * 10000 + aIn * (10000 - fee)) % U64 := by
  have hF : aIn * (10000 - fee) < U128 := by
    calc aIn * (10000 - fee) ≤ aIn * 10000 := Nat.mul_le_mul_left aIn (by omega)
    _ < U64 * 10000 := (Nat.mul_lt_mul_right (by omega)).mpr haIn
    _ < U128 := by decide
  have hden : rIn * 10000 + aIn * (10000 - fee) < U128 := by
    have h1 : rIn * 10000 < U64 * 10000 :=
      (Nat.mul_lt_mul_right (by omega)).mpr hrIn64
    have h2 : aIn * (10000 - fee) ≤ aIn * 10000 :=
      Nat.mul_le_mul_left aIn (by omega)
    have h3 : aIn * 10000 < U64 * 10000 :=
      (Nat.mul_lt_mul_right (by omega)).mpr haIn
    have : U64 * 10000 + U64 * 10000 < U128 := by decide
    omega
  simp only [swapAmountOut]
  rw [Nat.mod_eq_of_lt hF, Nat.mod_eq_of_lt hden]

/-- The computed output times the denominator is bounded by the (possibly
wrapped) numerator, hence by the exact numerator. -/
theorem swapAmountOut_mul_den_le (rIn rOut fee aIn : Nat)
    (haIn : aIn < U64) (hrIn64 : rIn < U64) :
    swapAmountOut rIn rOut fee aIn * (rIn * 10000 + aIn * (10000 - fee)) ≤
      rOut * (aIn * (10000 - fee)) % U128 := by
  rw [swapAmountOut_eq_unwrapped rIn rOut fee aIn haIn hrIn64]
  calc rOut * (aIn * (10000 - fee)) % U128
        / (rIn * 10000 + aIn * (10000 - fee)) % U64
        * (rIn * 10000 + aIn * (10000 - fee))
      ≤ rOut * (aIn * (10000 - fee)) % U128
        / (rIn * 10000 + aIn * (10000 - fee))
        * (rIn * 10000 + aIn * (10000 - fee)) :=
        Nat.mul_le_mul_right _ (Nat.mod_le _ _)
    _ ≤ rOut * (aIn * (10000 - fee)) % U128 := Nat.div_mul_le_self _ _

/-- Output bound (holds even when the unchecked `u128` numerator wraps):
the computed swap output is strictly below the output-side reserve. -/
theorem swapAmountOut_lt_rOut (rIn rOut fee aIn : Nat)
    (haIn : aIn < U64) (hrIn64 : rIn < U64)
    (hrIn : 0 < rIn) (hrOut : 0 < rOut) :
    swapAmountOut rIn rOut fee aIn < rOut := by
  set F := aIn * (10000 - fee) with hFdef
  set den := rIn * 10000 + F with hdendef
  have hFden : F < den := by
    have : 0 < rIn * 10000 := Nat.mul_pos hrIn (by omega)
    omega
  have hden0 : 0 < den := by omega
  have hkey : swapAmountOut rIn rOut fee aIn * den ≤ rOut * F % U128 :=
    swapAmountOut_mul_den_le rIn rOut fee aIn haIn hrIn64
  have hlt : rOut * F % U128 < rOut * den := by
    rcases lt_or_le (rOut * F) U128 with h | h
    · rw [Nat.mod_eq_of_lt h]
      exact (Nat.mul_lt_mul_left hrOut).mpr hFden
    · calc rOut * F % U128 < U128 := Nat.mod_lt _ (by decide)
      _ ≤ rOut * F := h
      _ < rOut * den := (Nat.mul_lt_mul_left hrOut).mpr hFden
  exact Nat.lt_of_mul_lt_mul_right (lt_of_le_of_lt hkey hlt)

/-- Core inequality behind the constant-product invariant: the computed
output satisfies `out * (reserve_in + amount_in) ≤ amount_in * reserve_out`,
even when the unchecked `u128` numerator wraps. -/
theorem swapAmountOut_key_ineq (rIn rOut fee aIn : Nat)
    (haIn : aIn < U64) (hrIn64 : rIn < U64)
    (hrIn : 0 < rIn) (hfee : fee ≤ 10000) :
    swapAmountOut rIn rOut fee aIn * (rIn + aIn) ≤ aIn * rOut := by
  set out := swapAmountOut rIn rOut fee aIn with houtdef
  set F := aIn * (10000 - fee) with hFdef
  set den := rIn * 10000 + F with hdendef
  have hden0 : 0 < den := by
    have : 0 < rIn * 10000 := Nat.mul_pos hrIn (by omega)
    omega
  have hkey : out * den ≤ rOut * F % U128 :=
    swapAmountOut_mul_den_le rIn rOut fee aIn haIn hrIn64
  have hkey' : out * den ≤ rOut * F := le_trans hkey (Nat.mod_le _ _)
  have hmain : out * (rIn + aIn) * den ≤ aIn * rOut * den := by
    have hFa : F * rIn ≤ aIn * 10000 * rIn := by
      have : F ≤ aIn * 10000 := Nat.mul_le_mul_left aIn (by omega)
      exact Nat.mul_le_mul_right rIn this
    calc out * (rIn + aIn) * den = out * den * (rIn + aIn) := by ring
      _ ≤ rOut * F * (rIn + aIn) := Nat.mul_le_mul_right _ hkey'
      _ ≤ aIn * rOut * den := by
          have : F * (rIn + aIn) ≤ aIn * den := by
            have h1 : F * rIn + F * aIn ≤ aIn * (rIn * 10000) + aIn * F := by
              have : F * rIn ≤ aIn * (rIn * 10000) := by
                calc F * rIn ≤ aIn * 10000 * rIn := hFa
                _ = aIn * (rIn * 10000) := by ring
              have h2 : F * aIn ≤ aIn * F := by rw [Nat.mul_comm]
              omega
            calc F * (rIn + aIn) = F * rIn + F * aIn := by ring
              _ ≤ aIn * (rIn * 10000) + aIn * F := h1
              _ = aIn * den := by rw [hdendef]; ring
          calc rOut * F * (rIn + aIn) = rOut * (F * (rIn + aIn)) := by ring
            _ ≤ rOut * (aIn * den) := Nat.mul_le_mul_left rOut this
            _ = aIn * rOut * den := by ring
  exact Nat.le_of_mul_le_mul_right hmain hden0

/-- Elementary form of the constant-product step: an output bounded as in
`swapAmountOut_key_ineq` cannot decrease the reserve product. -/
theorem constProd_step (rIn rOut aIn out : Nat) (hout : out ≤ rOut)
    (hkey : out * (rIn + aIn) ≤ aIn * rOut) :
    rIn * rOut ≤ (rIn + aIn) * (rOut - out) := by
  zify [hout]
  nlinarith [hkey]

/-- Wrapping `u64` subtraction agrees with exact subtraction when no
underflow occurs. -/
theorem wsub64_eq_sub (a b : Nat) (hba : b ≤ a) (ha : a < U64) :
    wsub64 a b = a - b := by
  unfold wsub64
  rw [show a + U64 - b = U64 + (a - b) by omega, Nat.add_mod_left,
    Nat.mod_eq_of_lt (by omega)]

/-- Inversion of a successful `swapTail`: the slippage and token-ledger
checks passed and the result fields are as written by the source. -/
theorem swapTail_ok_inv (pool : LiquidityPool) (acc : SwapAccounts)
    (uIn uOut vIn vOut amountIn minOut amountOut : Nat) (r : SwapResult)
    (h : swapTail pool acc uIn uOut vIn vOut amountIn minOut amountOut = .ok r) :
    minOut ≤ amountOut ∧ amountIn ≤ uIn ∧ vIn + amountIn < U64 ∧
    amountOut ≤ vOut ∧ uOut + amountOut < U64 ∧
    r.amountOut = amountOut ∧
    r.userInBal = uIn - amountIn ∧ r.userOutBal = uOut + amountOut ∧
    r.vaultInBal = vIn + amountIn ∧ r.vaultOutBal = vOut - amountOut ∧
    r.pool.mintA = pool.mintA ∧ r.pool.mintB = pool.mintB ∧
    r.pool.feeBps = pool.feeBps ∧ r.pool.bump = pool.bump ∧
    (acc.mintIn = pool.mintA →
      r.pool.reserveA = (pool.reserveA + amountIn) % U64 ∧
      r.pool.reserveB = wsub64 pool.reserveB amountOut) ∧
    (¬ acc.mintIn = pool.mintA →
      r.pool.reserveA = wsub64 pool.reserveA amountOut ∧
      r.pool.reserveB = (pool.reserveB + amountIn) % U64) := by
  unfold swapTail at h
  split_ifs at h with h1 h2 h3 h4 h5 h6
  all_goals injection h with h
  all_goals subst h
  · exact ⟨by omega, by omega, by omega, by omega, by omega,
      rfl, rfl, rfl, rfl, rfl, rfl, rfl, rfl, rfl,
      fun _ => ⟨rfl, rfl⟩, fun hd => absurd h6 hd⟩
  · exact ⟨by omega, by omega, by omega, by omega, by omega,
      rfl, rfl, rfl, rfl, rfl, rfl, rfl, rfl, rfl,
      fun hd => absurd hd h6, fun _ => ⟨rfl, rfl⟩⟩

/-- Inversion of a successful `process_swap`: the signer, zero-amount and
pool-address checks passed, and depending on the direction test the tail ran
on the correspondingly oriented reserves. -/
theorem processSwap_ok_inv (pool : LiquidityPool) (acc : SwapAccounts)
    (uIn uOut vIn vOut amountIn minOut : Nat) (r : SwapResult)
    (h : processSwap pool acc uIn uOut vIn vOut amountIn minOut = .ok r) :
    acc.userIsSigner = true ∧ amountIn ≠ 0 ∧
    acc.pool = createPoolAddress (minKey acc.mintIn acc.mintOut)
      (maxKey acc.mintIn acc.mintOut) pool.feeBps pool.bump ∧
    ((acc.mintIn = pool.mintA ∧
        swapTail pool acc uIn uOut vIn vOut amountIn minOut
          (swapAmountOut pool.reserveA pool.reserveB pool.feeBps amountIn) = .ok r) ∨
     (¬ acc.mintIn = pool.mintA ∧
        swapTail pool acc uIn uOut vIn vOut amountIn minOut
          (swapAmountOut pool.reserveB pool.reserveA pool.feeBps amountIn) = .ok r)) := by
  unfold processSwap at h
  split_ifs at h with h1 h2 h3 h4 h5 h6
  · exact ⟨by simpa using h1, h2, by simpa using h3, .inl ⟨h4, h⟩⟩
  · exact ⟨by simpa using h1, h2, by simpa using h3, .inr ⟨h4, h⟩⟩

/-- Inversion of a successful `withdrawTail`: slippage and burn checks
passed, and the payouts and updates are as written by the source. -/
theorem withdrawTail_ok_inv (pool : LiquidityPool)
    (lpSupply uA uB uLp vA vB lpIn aMin bMin aOut128 bOut128 : Nat)
    (r : WithdrawResult)
    (h : withdrawTail pool lpSupply uA uB uLp vA vB lpIn aMin bMin
      aOut128 bOut128 = .ok r) :
    aMin ≤ aOut128 ∧ bMin ≤ bOut128 ∧
    lpIn ≤ uLp ∧ lpIn ≤ lpSupply ∧
    aOut128 % U64 ≤ vA ∧ bOut128 % U64 ≤ vB ∧
    aOut128 % U64 ≤ pool.reserveA ∧ bOut128 % U64 ≤ pool.reserveB ∧
    r.aOut = aOut128 % U64 ∧ r.bOut = bOut128 % U64 ∧
    r.pool.reserveA = pool.reserveA - aOut128 % U64 ∧
    r.pool.reserveB = pool.reserveB - bOut128 % U64 ∧
    r.lpSupply = lpSupply - lpIn ∧ r.userLpBal = uLp - lpIn ∧
    r.userABal = uA + aOut128 % U64 ∧ r.userBBal = uB + bOut128 % U64 ∧
    r.vaultABal = vA - aOut128 % U64 ∧ r.vaultBBal = vB - bOut128 % U64 ∧
    r.pool.mintA = pool.mintA ∧ r.pool.mintB = pool.mintB ∧
    r.pool.feeBps = pool.feeBps ∧ r.pool.bump = pool.bump := by
  unfold withdrawTail at h
  split_ifs at h with h1 h2 h3 h4 h5 h6 h7 h8 h9
  injection h with h
  subst h
  refine ⟨by omega, by omega, by omega, by omega, by omega, by omega,
    by omega, by omega, rfl, rfl, rfl, rfl, rfl, rfl, rfl, rfl, rfl, rfl,
    rfl, rfl, rfl, rfl⟩

/-- Inversion of a successful `process_withdraw_liquidity`: every validation
passed and the tail ran on the exact `u128` payouts. -/
theorem processWithdrawLiquidity_ok_inv (pool : LiquidityPool)
    (acc : WithdrawAccounts)
    (lpSupply uA uB uLp vA vB lpIn aMin bMin : Nat) (r : WithdrawResult)
    (h : processWithdrawLiquidity pool acc lpSupply uA uB uLp vA vB
      lpIn aMin bMin = .ok r) :
    acc.userIsSigner = true ∧ lpIn ≠ 0 ∧
    acc.pool = createPoolAddress (minKey pool.mintA pool.mintB)
      (maxKey pool.mintA pool.mintB) pool.feeBps pool.bump ∧
    acc.mintA = pool.mintA ∧ acc.mintB = pool.mintB ∧
    acc.vaultA = getAssociatedTokenAddress acc.pool acc.mintA ∧
    acc.vaultB = getAssociatedTokenAddress acc.pool acc.mintB ∧
    acc.mintLp = (findLpMintAddress acc.pool).1 ∧
    lpSupply ≠ 0 ∧
    lpIn * pool.reserveA < U128 ∧ lpIn * pool.reserveB < U128 ∧
    withdrawTail pool lpSupply uA uB uLp vA vB lpIn aMin bMin
      (withdrawOut lpIn pool.reserveA lpSupply)
      (withdrawOut lpIn pool.reserveB lpSupply) = .ok r := by
  rw [processWithdrawLiquidity] at h
  by_cases h1 : ¬acc.userIsSigner = true
  · rw [if_pos h1] at h
    exact Except.noConfusion h
  rw [if_neg h1] at h
  by_cases h2 : lpIn = 0
  · rw [if_pos h2] at h
    exact Except.noConfusion h
  rw [if_neg h2] at h
  by_cases h3 : acc.pool ≠ createPoolAddress (minKey pool.mintA pool.mintB)
      (maxKey pool.mintA pool.mintB) pool.feeBps pool.bump
  · rw [if_pos h3] at h
    exact Except.noConfusion h
  rw [if_neg h3] at h
  by_cases h4 : acc.mintA ≠ pool.mintA
  · rw [if_pos h4] at h
    exact Except.noConfusion h
  rw [if_neg h4] at h
  by_cases h5 : acc.mintB ≠ pool.mintB
  · rw [if_pos h5] at h
    exact Except.noConfusion h
  rw [if_neg h5] at h
  by_cases h6 : acc.vaultA ≠ getAssociatedTokenAddress acc.pool acc.mintA
  · rw [if_pos h6] at h
    exact Except.noConfusion h
  rw [if_neg h6] at h
  by_cases h7 : acc.vaultB ≠ getAssociatedTokenAddress acc.pool acc.mintB
  · rw [if_pos h7] at h
    exact Except.noConfusion h
  rw [if_neg h7] at h
  by_cases h8 : acc.mintLp ≠ (findLpMintAddress acc.pool).1
  · rw [if_pos h8] at h
    exact Except.noConfusion h
  rw [if_neg h8] at h
  by_cases h9 : lpSupply = 0
  · rw [if_pos h9] at h
    exact Except.noConfusion h
  rw [if_neg h9] at h
  by_cases h10 : U128 ≤ lpIn * pool.reserveA
  · rw [if_pos h10] at h
    exact Except.noConfusion h
  rw [if_neg h10] at h
  by_cases h11 : U128 ≤ lpIn * pool.reserveB
  · rw [if_pos h11] at h
    exact Except.noConfusion h
  rw [if_neg h11] at h
  exact ⟨by simpa using h1, h2, by simpa using h3, by simpa using h4,
    by simpa using h5, by simpa using h6, by simpa using h7,
    by simpa using h8, h9, by omega, by omega, h⟩

/-- Inversion of a successful `provideTail`: the slippage check, the
`u64::try_from` narrowings and the token moves all passed, and the result
fields are as written by the source (in particular the minted LP amount is
the truncating `as u64` cast of `min lp_from_a lp_from_b`). -/
theorem provideTail_ok_inv (pool : LiquidityPool)
    (lpSupply uA uB uLp vA vB takeA takeB aMin bMin : Nat)
    (r : ProvideResult)
    (h : provideTail pool lpSupply uA uB uLp vA vB takeA takeB aMin bMin = .ok r) :
    aMin ≤ takeA ∧ bMin ≤ takeB ∧ pool.reserveB ≠ 0 ∧
    takeA < U64 ∧ takeB < U64 ∧
    takeA ≤ uA ∧ vA + takeA < U64 ∧ takeB ≤ uB ∧ vB + takeB < U64 ∧
    pool.reserveA + takeA < U64 ∧ pool.reserveB + takeB < U64 ∧
    r.lpMinted = provideLpAmount pool lpSupply takeA takeB ∧
    r.lpSupply = lpSupply + r.lpMinted ∧ r.userLpBal = uLp + r.lpMinted ∧
    r.pool.reserveA = pool.reserveA + takeA ∧
    r.pool.reserveB = pool.reserveB + takeB ∧
    r.userABal = uA - takeA ∧ r.userBBal = uB - takeB ∧
    r.vaultABal = vA + takeA ∧ r.vaultBBal = vB + takeB ∧
    r.pool.mintA = pool.mintA ∧ r.pool.mintB = pool.mintB ∧
    r.pool.feeBps = pool.feeBps ∧ r.pool.bump = pool.bump := by
  rw [provideTail] at h
  by_cases h1 : takeA < aMin ∨ takeB < bMin
  · rw [if_pos h1] at h
    exact Except.noConfusion h
  rw [if_neg h1] at h
  by_cases h2 : pool.reserveB = 0
  · rw [if_pos h2] at h
    exact Except.noConfusion h
  rw [if_neg h2] at h
  by_cases h3 : U64 ≤ takeA
  · rw [if_pos h3] at h
    exact Except.noConfusion h
  rw [if_neg h3] at h
  by_cases h4 : U64 ≤ takeB
  · rw [if_pos h4] at h
    exact Except.noConfusion h
  rw [if_neg h4] at h
  by_cases h5 : uA < takeA
  · rw [if_pos h5] at h
    exact Except.noConfusion h
  rw [if_neg h5] at h
  by_cases h6 : U64 ≤ vA + takeA
  · rw [if_pos h6] at h
    exact Except.noConfusion h
  rw [if_neg h6] at h
  by_cases h7 : uB < takeB
  · rw [if_pos h7] at h
    exact Except.noConfusion h
  rw [if_neg h7] at h
  by_cases h8 : U64 ≤ vB + takeB
  · rw [if_pos h8] at h
    exact Except.noConfusion h
  rw [if_neg h8] at h
  by_cases h9 : U64 ≤ lpSupply + provideLpAmount pool lpSupply takeA takeB
  · rw [if_pos h9] at h
    exact Except.noConfusion h
  rw [if_neg h9] at h
  by_cases h10 : U64 ≤ uLp + provideLpAmount pool lpSupply takeA takeB
  · rw [if_pos h10] at h
    exact Except.noConfusion h
  rw [if_neg h10] at h
  by_cases h11 : U64 ≤ pool.reserveA + takeA
  · rw [if_pos h11] at h
    exact Except.noConfusion h
  rw [if_neg h11] at h
  by_cases h12 : U64 ≤ pool.reserveB + takeB
  · rw [if_pos h12] at h
    exact Except.noConfusion h
  rw [if_neg h12] at h
  injection h with h
  subst h
  refine ⟨by omega, by omega, h2, by omega, by omega, by omega, by omega,
    by omega, by omega, by omega, by omega, rfl, rfl, rfl, rfl, rfl, rfl,
    rfl, rfl, rfl, rfl, rfl, rfl, rfl⟩

/-- Inversion of a successful `process_provide_liquidity`: every validation
passed, and depending on the proportional-intake branch the tail ran on the
takes computed by the source. -/
theorem processProvideLiquidity_ok_inv (pool : LiquidityPool)
    (acc : ProvideAccounts)
    (lpSupply uA uB uLp vA vB aDes bDes aMin bMin : Nat) (r : ProvideResult)
    (h : processProvideLiquidity pool acc lpSupply uA uB uLp vA vB
      aDes bDes aMin bMin = .ok r) :
    acc.userIsSigner = true ∧
    acc.pool = createPoolAddress (minKey pool.mintA pool.mintB)
      (maxKey pool.mintA pool.mintB) pool.feeBps pool.bump ∧
    acc.mintA = pool.mintA ∧ acc.mintB = pool.mintB ∧
    acc.vaultA = getAssociatedTokenAddress acc.pool acc.mintA ∧
    acc.vaultB = getAssociatedTokenAddress acc.pool acc.mintB ∧
    acc.mintLp = (findLpMintAddress acc.pool).1 ∧
    aDes ≠ 0 ∧ bDes ≠ 0 ∧
    aDes * pool.reserveB < U128 ∧ pool.reserveA ≠ 0 ∧
    ((aDes * pool.reserveB / pool.reserveA ≤ bDes ∧
        provideTail pool lpSupply uA uB uLp vA vB
          aDes (aDes * pool.reserveB / pool.reserveA) aMin bMin = .ok r) ∨
     (¬ aDes * pool.reserveB / pool.reserveA ≤ bDes ∧
        bDes * pool.reserveA < U128 ∧
        provideTail pool lpSupply uA uB uLp vA vB
          (bDes * pool.reserveA / pool.reserveB) bDes aMin bMin = .ok r)) := by
  rw [processProvideLiquidity] at h
  by_cases h1 : ¬acc.userIsSigner = true
  · rw [if_pos h1] at h
    exact Except.noConfusion h
  rw [if_neg h1] at h
  by_cases h2 : acc.pool ≠ createPoolAddress (minKey pool.mintA pool.mintB)
      (maxKey pool.mintA pool.mintB) pool.feeBps pool.bump
  · rw [if_pos h2] at h
    exact Except.noConfusion h
  rw [if_neg h2] at h
  by_cases h3 : acc.mintA ≠ pool.mintA
  · rw [if_pos h3] at h
    exact Except.noConfusion h
  rw [if_neg h3] at h
  by_cases h4 : acc.mintB ≠ pool.mintB
  · rw [if_pos h4] at h
    exact Except.noConfusion h
  rw [if_neg h4] at h
  by_cases h5 : acc.vaultA ≠ getAssociatedTokenAddress acc.pool acc.mintA
  · rw [if_pos h5] at h
    exact Except.noConfusion h
  rw [if_neg h5] at h
  by_cases h6 : acc.vaultB ≠ getAssociatedTokenAddress acc.pool acc.mintB
  · rw [if_pos h6] at h
    exact Except.noConfusion h
  rw [if_neg h6] at h
  by_cases h7 : acc.mintLp ≠ (findLpMintAddress acc.pool).1
  · rw [if_pos h7] at h
    exact Except.noConfusion h
  rw [if_neg h7] at h
  by_cases h8 : aDes = 0 ∨ bDes = 0
  · rw [if_pos h8] at h
    exact Except.noConfusion h
  rw [if_neg h8] at h
  by_cases h9 : U128 ≤ aDes * pool.reserveB
  · rw [if_pos h9] at h
    exact Except.noConfusion h
  rw [if_neg h9] at h
  by_cases h10 : pool.reserveA = 0
  · rw [if_pos h10] at h
    exact Except.noConfusion h
  rw [if_neg h10] at h
  by_cases h11 : aDes * pool.reserveB / pool.reserveA ≤ bDes
  · rw [if_pos h11] at h
    exact ⟨by simpa using h1, by simpa using h2, by simpa using h3,
      by simpa using h4, by simpa using h5, by simpa using h6,
      by simpa using h7, by omega, by omega, by omega, h10, .inl ⟨h11, h⟩⟩
  rw [if_neg h11] at h
  by_cases h12 : U128 ≤ bDes * pool.reserveA
  · rw [if_pos h12] at h
    exact Except.noConfusion h
  rw [if_neg h12] at h
  exact ⟨by simpa using h1, by simpa using h2, by simpa using h3,
    by simpa using h4, by simpa using h5, by simpa using h6,
    by simpa using h7, by omega, by omega, by omega, h10,
    .inr ⟨h11, by omega, h⟩⟩

/-- Inversion of a successful `process_create_pool`: every validation passed
and the result is exactly the record the source persists, with the LP amount
being the truncating cast of the floor square root of the product. -/
theorem processCreatePool_ok_inv (acc : CreatePoolAccounts)
    (uA uB amountA amountB feeBps : Nat) (r : CreatePoolResult)
    (h : processCreatePool acc uA uB amountA amountB feeBps = .ok r) :
    acc.userIsSigner = true ∧ acc.mintA ≠ acc.mintB ∧
    acc.pool = (findPoolAddress (minKey acc.mintA acc.mintB)
      (maxKey acc.mintA acc.mintB) feeBps).1 ∧
    acc.vaultA = getAssociatedTokenAddress acc.pool acc.mintA ∧
    acc.vaultB = getAssociatedTokenAddress acc.pool acc.mintB ∧
    acc.mintLp = (findLpMintAddress acc.pool).1 ∧
    acc.tokenProg = .progToken ∧ acc.ataProg = .progAta ∧ acc.sysProg = .progSys ∧
    amountA ≠ 0 ∧ amountB ≠ 0 ∧ feeBps ≤ 10000 ∧
    amountA ≤ uA ∧ amountA < U64 ∧ amountB ≤ uB ∧ amountB < U64 ∧
    amountA * amountB < U128 ∧
    r.lpMinted = integerSqrt (amountA * amountB) % U64 ∧
    r.lpSupply = r.lpMinted ∧ r.userLpBal = r.lpMinted ∧
    r.pool.mintA = acc.mintA ∧ r.pool.mintB = acc.mintB ∧
    r.pool.reserveA = amountA ∧ r.pool.reserveB = amountB ∧
    r.pool.feeBps = feeBps ∧ r.pool.bump = canonicalBump ∧
    r.vaultABal = amountA ∧ r.vaultBBal = amountB ∧
    r.userABal = uA - amountA ∧ r.userBBal = uB - amountB := by
  rw [processCreatePool] at h
  by_cases h1 : ¬acc.userIsSigner = true
  · rw [if_pos h1] at h
    exact Except.noConfusion h
  rw [if_neg h1] at h
  by_cases h2 : acc.mintA = acc.mintB
  · rw [if_pos h2] at h
    exact Except.noConfusion h
  rw [if_neg h2] at h
  by_cases h3 : acc.pool ≠ (findPoolAddress (minKey acc.mintA acc.mintB)
      (maxKey acc.mintA acc.mintB) feeBps).1
  · rw [if_pos h3] at h
    exact Except.noConfusion h
  rw [if_neg h3] at h
  by_cases h4 : acc.vaultA ≠ getAssociatedTokenAddress acc.pool acc.mintA
  · rw [if_pos h4] at h
    exact Except.noConfusion h
  rw [if_neg h4] at h
  by_cases h5 : acc.vaultB ≠ getAssociatedTokenAddress acc.pool acc.mintB
  · rw [if_pos h5] at h
    exact Except.noConfusion h
  rw [if_neg h5] at h
  by_cases h6 : acc.mintLp ≠ (findLpMintAddress acc.pool).1
  · rw [if_pos h6] at h
    exact Except.noConfusion h
  rw [if_neg h6] at h
  by_cases h7 : acc.tokenProg ≠ Pubkey.progToken
  · rw [if_pos h7] at h
    exact Except.noConfusion h
  rw [if_neg h7] at h
  by_cases h8 : acc.ataProg ≠ Pubkey.progAta
  · rw [if_pos h8] at h
    exact Except.noConfusion h
  rw [if_neg h8] at h
  by_cases h9 : acc.sysProg ≠ Pubkey.progSys
  · rw [if_pos h9] at h
    exact Except.noConfusion h
  rw [if_neg h9] at h
  by_cases h10 : amountA = 0 ∨ amountB = 0
  · rw [if_pos h10] at h
    exact Except.noConfusion h
  rw [if_neg h10] at h
  by_cases h11 : 10000 < feeBps
  · rw [if_pos h11] at h
    exact Except.noConfusion h
  rw [if_neg h11] at h
  by_cases h12 : uA < amountA
  · rw [if_pos h12] at h
    exact Except.noConfusion h
  rw [if_neg h12] at h
  by_cases h13 : U64 ≤ amountA
  · rw [if_pos h13] at h
    exact Except.noConfusion h
  rw [if_neg h13] at h
  by_cases h14 : uB < amountB
  · rw [if_pos h14] at h
    exact Except.noConfusion h
  rw [if_neg h14] at h
  by_cases h15 : U64 ≤ amountB
  · rw [if_pos h15] at h
    exact Except.noConfusion h
  rw [if_neg h15] at h
  by_cases h16 : U128 ≤ amountA * amountB
  · rw [if_pos h16] at h
    exact Except.noConfusion h
  rw [if_neg h16] at h
  by_cases h17 : U64 ≤ integerSqrt (amountA * amountB) % U64
  · rw [if_pos h17] at h
    exact Except.noConfusion h
  rw [if_neg h17] at h
  injection h with h
  subst h
  refine ⟨by simpa using h1, h2, by simpa using h3, by simpa using h4,
    by simpa using h5, by simpa using h6, by simpa using h7,
    by simpa using h8, by simpa using h9, by omega, by omega, by omega,
    by omega, by omega, by omega, by omega, by omega,
    rfl, rfl, rfl, rfl, rfl, rfl, rfl, rfl, rfl, rfl, rfl, rfl, rfl⟩

end AmmModel

namespace AmmModel

/-- Claim C3: every successful CreatePool(amount_a, amount_b, fee_bps) with
positive amounts and fee_bps at most 10000 mints exactly
floor(sqrt(amount_a * amount_b)) LP tokens to the caller and persists
reserve_a = amount_a, reserve_b = amount_b. -/
theorem create_pool_geometric_mean (acc : CreatePoolAccounts)
    (uA uB amountA amountB feeBps : Nat) (r : CreatePoolResult)
    (hok : processCreatePool acc uA uB amountA amountB feeBps = .ok r)
    (hA : 0 < amountA) (hB : 0 < amountB) (hfee : feeBps ≤ 10000) :
    r.lpMinted = Nat.sqrt (amountA * amountB) ∧
    r.pool.reserveA = amountA ∧ r.pool.reserveB = amountB := by
  obtain ⟨-, -, -, -, -, -, -, -, -, -, -, -, -, hA64, -, hB64, -, hlp, -, -,
    -, -, hra, hrb, -, -, -, -, -, -⟩ :=
    processCreatePool_ok_inv acc uA uB amountA amountB feeBps r hok
  have hsq : Nat.sqrt (amountA * amountB) < U64 := by
    have h1 := mul_lt_U128 hA64 hB64
    have h2 : U64 * U64 = U128 := by decide
    exact Nat.sqrt_lt.mpr (by omega)
  refine ⟨?_, hra, hrb⟩
  rw [hlp, integerSqrt_eq, Nat.mod_eq_of_lt hsq]

/-- Concrete accounts for the CreatePool witness. -/
def createAccW : CreatePoolAccounts :=
  { userIsSigner := true, user := .ext 0, pool := poolKeyXY,
    mintA := mintX, mintB := mintY, vaultA := vaultX, vaultB := vaultY,
    mintLp := lpMintXY, tokenProg := .progToken, ataProg := .progAta,
    sysProg := .progSys }

/-- Expected result of the CreatePool witness run. -/
def createResW : CreatePoolResult :=
  { pool := poolXY, lpMinted := 2000, lpSupply := 2000,
    userABal := 0, userBBal := 0, userLpBal := 2000,
    vaultABal := 1000, vaultBBal := 4000 }

/-- Witness for claim C3: the spec's concrete scenario CreatePool(1000, 4000,
30) succeeds, mints floor(sqrt(4000000)) = 2000 LP and stores reserves
(1000, 4000). -/
theorem create_pool_geometric_mean_witness :
    processCreatePool createAccW 1000 4000 1000 4000 30 = .ok createResW ∧
    (createResW.lpMinted = Nat.sqrt (1000 * 4000) ∧
     createResW.pool.reserveA = 1000 ∧ createResW.pool.reserveB = 4000) :=
  ⟨by decide,
   create_pool_geometric_mean createAccW 1000 4000 1000 4000 30 createResW
     (by decide) (by decide) (by decide) (by decide)⟩

/-- Claim C5: a successful WithdrawLiquidity(amount_lp_in) pays out exactly
floor(amount_lp_in * reserve / total_lp) on each side and decrements the
reserves by exactly those payouts; amount_lp_in = 0 is rejected with
ZeroLiquidityAmount, and total LP supply 0 is rejected as the
uninitialized-state error. -/
theorem withdraw_liquidity_exact_payout :
    (∀ pool : LiquidityPool, ∀ acc : WithdrawAccounts,
      ∀ lpSupply uA uB uLp vA vB lpIn aMin bMin : Nat, ∀ r : WithdrawResult,
      processWithdrawLiquidity pool acc lpSupply uA uB uLp vA vB
        lpIn aMin bMin = .ok r →
      pool.reserveA < U64 → pool.reserveB < U64 →
      r.aOut = withdrawOut lpIn pool.reserveA lpSupply ∧
      r.bOut = withdrawOut lpIn pool.reserveB lpSupply ∧
      r.pool.reserveA = pool.reserveA - r.aOut ∧
      r.pool.reserveB = pool.reserveB - r.bOut) ∧
    (∀ pool : LiquidityPool, ∀ acc : WithdrawAccounts,
      ∀ lpSupply uA uB uLp vA vB aMin bMin : Nat,
      acc.userIsSigner = true →
      processWithdrawLiquidity pool acc lpSupply uA uB uLp vA vB 0 aMin bMin =
        .error .zeroLiquidityAmount) ∧
    (∀ pool : LiquidityPool, ∀ acc : WithdrawAccounts,
      ∀ uA uB uLp vA vB lpIn aMin bMin : Nat,
      acc.userIsSigner = true → lpIn ≠ 0 →
      acc.pool = createPoolAddress (minKey pool.mintA pool.mintB)
        (maxKey pool.mintA pool.mintB) pool.feeBps pool.bump →
      acc.mintA = pool.mintA → acc.mintB = pool.mintB →
      acc.vaultA = getAssociatedTokenAddress acc.pool acc.mintA →
      acc.vaultB = getAssociatedTokenAddress acc.pool acc.mintB →
      acc.mintLp = (findLpMintAddress acc.pool).1 →
      processWithdrawLiquidity pool acc 0 uA uB uLp vA vB lpIn aMin bMin =
        .error .uninitializedAccount) := by
  refine ⟨?_, ?_, ?_⟩
  · intro pool acc lpSupply uA uB uLp vA vB lpIn aMin bMin r hok hA64 hB64
    obtain ⟨-, -, -, -, -, -, -, -, hT0, -, -, htail⟩ :=
      processWithdrawLiquidity_ok_inv pool acc lpSupply uA uB uLp vA vB
        lpIn aMin bMin r hok
    obtain ⟨-, -, -, hlpT, -, -, -, -, haOut, hbOut, hrA, hrB, -, -, -, -, -,
      -, -, -, -, -⟩ :=
      withdrawTail_ok_inv pool lpSupply uA uB uLp vA vB lpIn aMin bMin _ _ r htail
    have hTpos : 0 < lpSupply := Nat.pos_of_ne_zero hT0
    have haLt : withdrawOut lpIn pool.reserveA lpSupply < U64 :=
      lt_of_le_of_lt (withdrawOut_le lpIn pool.reserveA lpSupply hlpT hTpos) hA64
    have hbLt : withdrawOut lpIn pool.reserveB lpSupply < U64 :=
      lt_of_le_of_lt (withdrawOut_le lpIn pool.reserveB lpSupply hlpT hTpos) hB64
    rw [Nat.mod_eq_of_lt haLt] at haOut hrA
    rw [Nat.mod_eq_of_lt hbLt] at hbOut hrB
    exact ⟨haOut, hbOut, by rw [hrA, haOut], by rw [hrB, hbOut]⟩
  · intro pool acc lpSupply uA uB uLp vA vB aMin bMin hsig
    rw [processWithdrawLiquidity, if_neg (by simp [hsig]), if_pos rfl]
  · intro pool acc uA uB uLp vA vB lpIn aMin bMin hsig hlp hpool hmA hmB
      hvA hvB hlpmint
    rw [processWithdrawLiquidity, if_neg (by simp [hsig]), if_neg hlp,
      if_neg (by simp [hpool]), if_neg (by simp [hmA]), if_neg (by simp [hmB]),
      if_neg (by simp [hvA]), if_neg (by simp [hvB]),
      if_neg (by simp [hlpmint]), if_pos rfl]

/-- Concrete accounts for the Withdraw witnesses. -/
def withdrawAccW : WithdrawAccounts :=
  { userIsSigner := true, pool := poolKeyXY, mintA := mintX, mintB := mintY,
    vaultA := vaultX, vaultB := vaultY, mintLp := lpMintXY }

/-- Expected result of the Withdraw witness run: burning 500 of 2000 LP on
reserves (1000, 4000) pays out (250, 1000). -/
def withdrawResW : WithdrawResult :=
  { pool := { mintA := mintX, mintB := mintY, reserveA := 750,
              reserveB := 3000, feeBps := 30, bump := canonicalBump },
    aOut := 250, bOut := 1000, lpSupply := 1500,
    userABal := 250, userBBal := 1000, userLpBal := 0,
    vaultABal := 750, vaultBBal := 3000 }

/-- Witness for claim C5: a concrete proportional redemption, plus the two
rejection cases at concrete inputs. -/
theorem withdraw_liquidity_exact_payout_witness :
    (withdrawResW.aOut = withdrawOut 500 poolXY.reserveA 2000 ∧
     withdrawResW.bOut = withdrawOut 500 poolXY.reserveB 2000 ∧
     withdrawResW.pool.reserveA = poolXY.reserveA - withdrawResW.aOut ∧
     withdrawResW.pool.reserveB = poolXY.reserveB - withdrawResW.bOut) ∧
    processWithdrawLiquidity poolXY withdrawAccW 2000 0 0 500 1000 4000
      500 0 0 = .ok withdrawResW ∧
    processWithdrawLiquidity poolXY withdrawAccW 2000 0 0 500 1000 4000
      0 0 0 = .error .zeroLiquidityAmount ∧
    processWithdrawLiquidity poolXY withdrawAccW 0 0 0 500 1000 4000
      500 0 0 = .error .uninitializedAccount :=
  ⟨withdraw_liquidity_exact_payout.1 poolXY withdrawAccW 2000 0 0 500 1000
     4000 500 0 0 withdrawResW (by decide) (by decide) (by decide),
   by decide,
   withdraw_liquidity_exact_payout.2.1 poolXY withdrawAccW 2000 0 0 500 1000
     4000 0 0 (by decide),
   withdraw_liquidity_exact_payout.2.2 poolXY withdrawAccW 0 0 500 1000 4000
     500 0 0 (by decide) (by decide) (by decide) (by decide) (by decide)
     (by decide) (by decide) (by decide)⟩

end AmmModel

namespace AmmModel

/-- Pool record for the C8 counterexample: reserves 2^33 on both sides. -/
def poolC8 : LiquidityPool :=
  { mintA := mintX, mintB := mintY, reserveA := 2 ^ 33, reserveB := 2 ^ 33,
    feeBps := 30, bump := canonicalBump }

/-- Counterexample to claim C8 as stated: on a WithdrawLiquidity input whose
128-bit payout a_out = 2^33 * 2^33 / 1 needs more than 64 bits (so the
narrowing back to u64 would truncate), the handler does not abort with
ArithmeticOverflow — there is no overflow check on the cast; the run aborts
earlier, in the LP burn, with the token-program insufficient-funds error. -/
theorem withdraw_narrowing_counterexample :
    U64 ≤ withdrawOut (2 ^ 33) poolC8.reserveA 1 ∧
    processWithdrawLiquidity poolC8 withdrawAccW 1 0 0 1 (2 ^ 33) (2 ^ 33)
      (2 ^ 33) 0 0 = .error .insufficientFunds ∧
    Err.insufficientFunds ≠ Err.arithmeticOverflow :=
  ⟨by decide, by decide, by decide⟩

/-- Claim C8 (amended): the multiply-before-divide arithmetic is widened to
128 bits and the multiplications in WithdrawLiquidity are guarded by
checked_mul aborting with ArithmeticOverflow, but the narrowing of the
payouts back to 64 bits is a plain truncating `as u64` cast with no explicit
check; truncation is nevertheless unreachable, because the preceding burn
succeeds only with amount_lp_in at most the total LP supply, which bounds
each 128-bit payout by the (64-bit) reserve, so on every successful
execution the cast is value-preserving. -/
theorem withdraw_narrowing_amended :
    (∀ lpIn R T : Nat, lpIn ≤ T → 0 < T → R < U64 →
      withdrawOut lpIn R T < U64 ∧
      withdrawOut lpIn R T % U64 = withdrawOut lpIn R T) ∧
    (∀ pool : LiquidityPool, ∀ acc : WithdrawAccounts,
      ∀ lpSupply uA uB uLp vA vB lpIn aMin bMin : Nat, ∀ r : WithdrawResult,
      processWithdrawLiquidity pool acc lpSupply uA uB uLp vA vB
        lpIn aMin bMin = .ok r →
      pool.reserveA < U64 → pool.reserveB < U64 →
      r.aOut = withdrawOut lpIn pool.reserveA lpSupply ∧
      r.bOut = withdrawOut lpIn pool.reserveB lpSupply) := by
  constructor
  · intro lpIn R T hle hT hR
    have h := lt_of_le_of_lt (withdrawOut_le lpIn R T hle hT) hR
    exact ⟨h, Nat.mod_eq_of_lt h⟩
  · intro pool acc lpSupply uA uB uLp vA vB lpIn aMin bMin r hok hA64 hB64
    obtain ⟨-, -, -, -, -, -, -, -, hT0, -, -, htail⟩ :=
      processWithdrawLiquidity_ok_inv pool acc lpSupply uA uB uLp vA vB
        lpIn aMin bMin r hok
    obtain ⟨-, -, -, hlpT, -, -, -, -, haOut, hbOut, -, -, -, -, -, -, -, -,
      -, -, -, -⟩ :=
      withdrawTail_ok_inv pool lpSupply uA uB uLp vA vB lpIn aMin bMin _ _ r htail
    have hTpos : 0 < lpSupply := Nat.pos_of_ne_zero hT0
    have haLt := lt_of_le_of_lt (withdrawOut_le lpIn pool.reserveA lpSupply hlpT hTpos) hA64
    have hbLt := lt_of_le_of_lt (withdrawOut_le lpIn pool.reserveB lpSupply hlpT hTpos) hB64
    rw [Nat.mod_eq_of_lt haLt] at haOut
    rw [Nat.mod_eq_of_lt hbLt] at hbOut
    exact ⟨haOut, hbOut⟩

/-- Witness for the amended claim C8: the bound and the exact payouts at the
concrete redemption of 500 of 2000 LP. -/
theorem withdraw_narrowing_amended_witness :
    (withdrawOut 500 1000 2000 < U64 ∧
     withdrawOut 500 1000 2000 % U64 = withdrawOut 500 1000 2000) ∧
    (withdrawResW.aOut = withdrawOut 500 poolXY.reserveA 2000 ∧
     withdrawResW.bOut = withdrawOut 500 poolXY.reserveB 2000) :=
  ⟨withdraw_narrowing_amended.1 500 1000 2000 (by decide) (by decide) (by decide),
   withdraw_narrowing_amended.2 poolXY withdrawAccW 2000 0 0 500 1000 4000
     500 0 0 withdrawResW (by decide) (by decide) (by decide)⟩

/-- Claim C10: with positive reserves and a stored fee of at most 10000 basis
points, the computed swap output is strictly below the output-side reserve —
even when the unchecked 128-bit numerator wraps — so the unchecked reserve
subtraction never underflows and the output-side reserve (and mirrored
vault) is never fully drained. -/
theorem swap_output_lt_reserve :
    (∀ rIn rOut fee aIn : Nat,
      0 < rIn → 0 < rOut → fee ≤ 10000 → rIn < U64 → aIn < U64 →
      swapAmountOut rIn rOut fee aIn < rOut) ∧
    (∀ pool : LiquidityPool, ∀ acc : SwapAccounts,
      ∀ uIn uOut vIn vOut amountIn minOut : Nat, ∀ r : SwapResult,
      processSwap pool acc uIn uOut vIn vOut amountIn minOut = .ok r →
      0 < pool.reserveA → 0 < pool.reserveB → pool.feeBps ≤ 10000 →
      pool.reserveA < U64 → pool.reserveB < U64 → amountIn < U64 →
      (acc.mintIn = pool.mintA →
        r.amountOut < pool.reserveB ∧
        r.pool.reserveB = pool.reserveB - r.amountOut ∧
        0 < r.pool.reserveB) ∧
      (acc.mintIn ≠ pool.mintA →
        r.amountOut < pool.reserveA ∧
        r.pool.reserveA = pool.reserveA - r.amountOut ∧
        0 < r.pool.reserveA)) := by
  constructor
  · intro rIn rOut fee aIn hrIn hrOut hfee hrIn64 haIn
    exact swapAmountOut_lt_rOut rIn rOut fee aIn haIn hrIn64 hrIn hrOut
  · intro pool acc uIn uOut vIn vOut amountIn minOut r hok hra hrb hfee
      hra64 hrb64 ha64
    obtain ⟨-, -, -, hcases⟩ :=
      processSwap_ok_inv pool acc uIn uOut vIn vOut amountIn minOut r hok
    rcases hcases with ⟨hdir, htail⟩ | ⟨hdir, htail⟩
    · obtain ⟨-, -, -, -, -, hout, -, -, -, -, -, -, -, -, hupd, -⟩ :=
        swapTail_ok_inv pool acc uIn uOut vIn vOut amountIn minOut _ r htail
      have hlt : swapAmountOut pool.reserveA pool.reserveB pool.feeBps amountIn
          < pool.reserveB :=
        swapAmountOut_lt_rOut _ _ _ _ ha64 hra64 hra hrb
      obtain ⟨-, hrB⟩ := hupd hdir
      rw [wsub64_eq_sub _ _ (Nat.le_of_lt hlt) hrb64] at hrB
      refine ⟨fun _ => ⟨by rw [hout]; exact hlt, by rw [hrB, hout], ?_⟩,
        fun hd => absurd hdir hd⟩
      rw [hrB]
      omega
    · obtain ⟨-, -, -, -, -, hout, -, -, -, -, -, -, -, -, -, hupd⟩ :=
        swapTail_ok_inv pool acc uIn uOut vIn vOut amountIn minOut _ r htail
      have hlt : swapAmountOut pool.reserveB pool.reserveA pool.feeBps amountIn
          < pool.reserveA :=
        swapAmountOut_lt_rOut _ _ _ _ ha64 hrb64 hrb hra
      obtain ⟨hrA, -⟩ := hupd hdir
      rw [wsub64_eq_sub _ _ (Nat.le_of_lt hlt) hra64] at hrA
      refine ⟨fun hd => absurd hd hdir,
        fun _ => ⟨by rw [hout]; exact hlt, by rw [hrA, hout], ?_⟩⟩
      rw [hrA]
      omega

/-- Concrete accounts for the Swap witnesses (correct vaults). -/
def swapAccW : SwapAccounts :=
  { userIsSigner := true, pool := poolKeyXY, mintIn := mintX, mintOut := mintY,
    vaultIn := vaultX, vaultOut := vaultY,
    userAtaIn := .ext 10, userAtaOut := .ext 11 }

/-- Expected result of the witness swap: 100 of X into (1000, 4000) at 30 bps
yields 362 of Y. -/
def swapResW : SwapResult :=
  { pool := { mintA := mintX, mintB := mintY, reserveA := 1100,
              reserveB := 3638, feeBps := 30, bump := canonicalBump },
    amountOut := 362, userInBal := 900, userOutBal := 362,
    vaultInBal := 1100, vaultOutBal := 3638 }

/-- Witness for claim C10: the output bound at the spec's concrete scenario,
both as the pure computation and through the handler. -/
theorem swap_output_lt_reserve_witness :
    swapAmountOut 1000 4000 30 100 < 4000 ∧
    processSwap poolXY swapAccW 1000 0 1000 4000 100 0 = .ok swapResW ∧
    (swapResW.amountOut < poolXY.reserveB ∧
     swapResW.pool.reserveB = poolXY.reserveB - swapResW.amountOut ∧
     0 < swapResW.pool.reserveB) :=
  ⟨swap_output_lt_reserve.1 1000 4000 30 100 (by decide) (by decide)
     (by decide) (by decide) (by decide),
   by decide,
   (swap_output_lt_reserve.2 poolXY swapAccW 1000 0 1000 4000 100 0 swapResW
     (by decide) (by decide) (by decide) (by decide) (by decide) (by decide)
     (by decide)).1 (by decide)⟩

end AmmModel

namespace PirateModel

open AmmModel

/-- Claim C9: the swap handler of the swap-pool variant performs no token
transfer — for every input passing its validations (all four associated
token account addresses match their derivations, a nonzero amount, distinct
mints) it returns success with the pool record and all four token balances
unchanged. -/
theorem pirate_swap_no_effect (st : PirateState) (acc : PirateSwapAccounts)
    (amt : Nat)
    (h1 : acc.poolReceiveAta = getAssociatedTokenAddress acc.pool acc.receiveMint)
    (h2 : acc.payerReceiveAta = getAssociatedTokenAddress acc.payer acc.receiveMint)
    (h3 : acc.poolPayAta = getAssociatedTokenAddress acc.pool acc.payMint)
    (h4 : acc.payerPayAta = getAssociatedTokenAddress acc.payer acc.payMint)
    (h5 : 0 < amt) (h6 : acc.receiveMint ≠ acc.payMint) :
    pirateProcessSwap st acc amt = .ok st := by
  rw [pirateProcessSwap, if_neg (by simp [h1]), if_neg (by simp [h2]),
    if_neg (by simp [h3]), if_neg (by simp [h4]), if_neg (by omega),
    if_neg h6]

/-- Concrete state for the C9 witness. -/
def pirateStW : PirateState :=
  { pool := { assets := [AmmModel.mintX, AmmModel.mintY], bump := 254 },
    poolReceiveBal := 10, payerReceiveBal := 0,
    poolPayBal := 5, payerPayBal := 100 }

/-- Concrete accounts for the C9 witness. -/
def pirateAccW : PirateSwapAccounts :=
  { pool := .ext 50, receiveMint := AmmModel.mintX,
    poolReceiveAta := .ata (.ext 50) AmmModel.mintX,
    payerReceiveAta := .ata (.ext 51) AmmModel.mintX,
    payMint := AmmModel.mintY,
    poolPayAta := .ata (.ext 50) AmmModel.mintY,
    payerPayAta := .ata (.ext 51) AmmModel.mintY,
    payer := .ext 51 }

/-- Witness for claim C9: a concrete valid swap input returns success with
the state unchanged. -/
theorem pirate_swap_no_effect_witness :
    pirateProcessSwap pirateStW pirateAccW 25 = .ok pirateStW :=
  pirate_swap_no_effect pirateStW pirateAccW 25 (by decide) (by decide)
    (by decide) (by decide) (by decide) (by decide)

end PirateModel

namespace AmmModel

/-- Claim C1: for every Swap with positive amount executed on a pool with
stored fee at most 10000 basis points and positive reserves (the vault
balances mirroring the stored reserves, the data-model invariant), the
post-state reserves are reserve_in + amount_in and reserve_out - amount_out,
and their product never falls below the pre-state product. -/
theorem swap_preserves_constant_product (pool : LiquidityPool)
    (acc : SwapAccounts) (uIn uOut vIn vOut amountIn minOut : Nat)
    (r : SwapResult)
    (hok : processSwap pool acc uIn uOut vIn vOut amountIn minOut = .ok r)
    (hfee : pool.feeBps ≤ 10000)
    (hra : 0 < pool.reserveA) (hrb : 0 < pool.reserveB)
    (hra64 : pool.reserveA < U64) (hrb64 : pool.reserveB < U64)
    (ha0 : 0 < amountIn) (ha64 : amountIn < U64)
    (hvIn : vIn = if acc.mintIn = pool.mintA then pool.reserveA else pool.reserveB)
    (hvOut : vOut = if acc.mintIn = pool.mintA then pool.reserveB else pool.reserveA) :
    pool.reserveA * pool.reserveB ≤ r.pool.reserveA * r.pool.reserveB ∧
    (acc.mintIn = pool.mintA →
      r.pool.reserveA = pool.reserveA + amountIn ∧
      r.pool.reserveB = pool.reserveB - r.amountOut) ∧
    (acc.mintIn ≠ pool.mintA →
      r.pool.reserveB = pool.reserveB + amountIn ∧
      r.pool.reserveA = pool.reserveA - r.amountOut) := by
  obtain ⟨-, -, -, hcases⟩ :=
    processSwap_ok_inv pool acc uIn uOut vIn vOut amountIn minOut r hok
  rcases hcases with ⟨hdir, htail⟩ | ⟨hdir, htail⟩
  · obtain ⟨-, -, hvin64, -, -, hout, -, -, -, -, -, -, -, -, hupd, -⟩ :=
      swapTail_ok_inv pool acc uIn uOut vIn vOut amountIn minOut _ r htail
    rw [hvIn, if_pos hdir] at hvin64
    obtain ⟨hrA, hrB⟩ := hupd hdir
    have hlt : swapAmountOut pool.reserveA pool.reserveB pool.feeBps amountIn
        < pool.reserveB :=
      swapAmountOut_lt_rOut _ _ _ _ ha64 hra64 hra hrb
    rw [Nat.mod_eq_of_lt (by omega)] at hrA
    rw [wsub64_eq_sub _ _ (Nat.le_of_lt hlt) hrb64] at hrB
    have hkey := swapAmountOut_key_ineq pool.reserveA pool.reserveB
      pool.feeBps amountIn ha64 hra64 hra hfee
    have hprod := constProd_step pool.reserveA pool.reserveB amountIn _
      (Nat.le_of_lt hlt) hkey
    refine ⟨?_, fun _ => ⟨hrA, by rw [hrB, hout]⟩, fun hd => absurd hdir hd⟩
    rw [hrA, hrB]
    exact hprod
  · obtain ⟨-, -, hvin64, -, -, hout, -, -, -, -, -, -, -, -, -, hupd⟩ :=
      swapTail_ok_inv pool acc uIn uOut vIn vOut amountIn minOut _ r htail
    rw [hvIn, if_neg hdir] at hvin64
    obtain ⟨hrA, hrB⟩ := hupd hdir
    have hlt : swapAmountOut pool.reserveB pool.reserveA pool.feeBps amountIn
        < pool.reserveA :=
      swapAmountOut_lt_rOut _ _ _ _ ha64 hrb64 hrb hra
    rw [Nat.mod_eq_of_lt (by omega)] at hrB
    rw [wsub64_eq_sub _ _ (Nat.le_of_lt hlt) hra64] at hrA
    have hkey := swapAmountOut_key_ineq pool.reserveB pool.reserveA
      pool.feeBps amountIn ha64 hrb64 hrb hfee
    have hprod := constProd_step pool.reserveB pool.reserveA amountIn _
      (Nat.le_of_lt hlt) hkey
    refine ⟨?_, fun hd => absurd hd hdir, fun _ => ⟨hrB, by rw [hrA, hout]⟩⟩
    rw [hrA, hrB]
    calc pool.reserveA * pool.reserveB
        = pool.reserveB * pool.reserveA := Nat.mul_comm _ _
    _ ≤ (pool.reserveB + amountIn) *
        (pool.reserveA - swapAmountOut pool.reserveB pool.reserveA
          pool.feeBps amountIn) := hprod
    _ = (pool.reserveA - swapAmountOut pool.reserveB pool.reserveA
          pool.feeBps amountIn) * (pool.reserveB + amountIn) := Nat.mul_comm _ _

/-- Witness for claim C1: the spec's concrete swap of 100 X into the
(1000, 4000) pool at 30 bps succeeds and the reserve product grows from
4000000 to 1100 * 3638. -/
theorem swap_preserves_constant_product_witness :
    processSwap poolXY swapAccW 1000 0 1000 4000 100 0 = .ok swapResW ∧
    poolXY.reserveA * poolXY.reserveB ≤
      swapResW.pool.reserveA * swapResW.pool.reserveB :=
  ⟨by decide,
   (swap_preserves_constant_product poolXY swapAccW 1000 0 1000 4000 100 0
     swapResW (by decide) (by decide) (by decide) (by decide) (by decide)
     (by decide) (by decide) (by decide) (by decide) (by decide)).1⟩

/-- Pool record for the C2 counterexample: reserves (1, 2^62) with zero fee. -/
def poolBig : LiquidityPool :=
  { mintA := mintX, mintB := mintY, reserveA := 1, reserveB := 2 ^ 62,
    feeBps := 0, bump := canonicalBump }

/-- Derived pool address of the C2 counterexample pool. -/
def poolKeyBig : Pubkey := .poolPda mintX mintY 0 canonicalBump

/-- Accounts for the C2 counterexample swap. -/
def swapAccBig : SwapAccounts :=
  { userIsSigner := true, pool := poolKeyBig, mintIn := mintX, mintOut := mintY,
    vaultIn := .ata poolKeyBig mintX, vaultOut := .ata poolKeyBig mintY,
    userAtaIn := .ext 10, userAtaOut := .ext 11 }

/-- Counterexample to claim C2 as stated: swapping 2^62 into reserves
(1, 2^62) at fee 0 makes the unchecked 128-bit numerator
2^62 * 2^62 * 10000 wrap to 0, so the handler succeeds computing output 0,
while the claimed formula floor(reserve_out * post_fee / (reserve_in * 10000
+ post_fee)) gives 2^62 - 1. -/
theorem swap_formula_counterexample :
    (processSwap poolBig swapAccBig (2 ^ 62) 0 1 (2 ^ 62) (2 ^ 62) 0).toOption.map
      (fun r => r.amountOut) = some 0 ∧
    poolBig.reserveB * (2 ^ 62 * (10000 - poolBig.feeBps)) /
      (poolBig.reserveA * 10000 + 2 ^ 62 * (10000 - poolBig.feeBps)) =
      2 ^ 62 - 1 ∧
    (0 : Nat) ≠ 2 ^ 62 - 1 :=
  ⟨by decide, by decide, by decide⟩

/-- Claim C2 (amended): the computed swap output equals the fee-adjusted
constant-product formula floor(reserve_out * amount_in_post_fee /
(reserve_in * 10000 + amount_in_post_fee)) whenever the 128-bit numerator
reserve_out * amount_in_post_fee does not overflow (in particular always
when reserve_out * amount_in * 10000 < 2^128); the unchecked multiplication
wraps otherwise.  The spec's concrete instance holds: on reserves
(1000, 4000) at 30 bps, amount_in = 100 yields exactly 362. -/
theorem swap_formula_amended :
    (∀ rIn rOut fee aIn : Nat,
      0 < rIn → rIn < U64 → rOut < U64 → aIn < U64 →
      rOut * (aIn * (10000 - fee)) < U128 →
      swapAmountOut rIn rOut fee aIn =
        rOut * (aIn * (10000 - fee)) /
          (rIn * 10000 + aIn * (10000 - fee))) ∧
    swapAmountOut 1000 4000 30 100 = 362 := by
  constructor
  · intro rIn rOut fee aIn hrIn hrIn64 hrOut64 haIn hno
    rw [swapAmountOut_eq_unwrapped rIn rOut fee aIn haIn hrIn64,
      Nat.mod_eq_of_lt hno]
    apply Nat.mod_eq_of_lt
    rcases Nat.eq_zero_or_pos rOut with h0 | h0
    · rw [h0, Nat.zero_mul, Nat.zero_div]
      decide
    · have hden0 : 0 < rIn * 10000 + aIn * (10000 - fee) := by
        have : 0 < rIn * 10000 := Nat.mul_pos hrIn (by omega)
        omega
      have hq : rOut * (aIn * (10000 - fee)) /
          (rIn * 10000 + aIn * (10000 - fee)) < rOut := by
        rw [Nat.div_lt_iff_lt_mul hden0]
        have hFlt : aIn * (10000 - fee) <
            rIn * 10000 + aIn * (10000 - fee) := by
          have : 0 < rIn * 10000 := Nat.mul_pos hrIn (by omega)
          omega
        exact (Nat.mul_lt_mul_left h0).mpr hFlt
      exact lt_trans hq hrOut64
  · decide

/-- Witness for the amended claim C2: the formula at the spec's concrete
scenario, evaluating to 362. -/
theorem swap_formula_amended_witness :
    swapAmountOut 1000 4000 30 100 =
      4000 * (100 * (10000 - 30)) / (1000 * 10000 + 100 * (10000 - 30)) ∧
    4000 * (100 * (10000 - 30)) / (1000 * 10000 + 100 * (10000 - 30)) = 362 :=
  ⟨swap_formula_amended.1 1000 4000 30 100 (by decide) (by decide) (by decide)
     (by decide) (by decide),
   by decide⟩

/-- Pool record for the C4 counterexample: tiny reserves (2, 2) against a
large LP supply. -/
def poolTiny : LiquidityPool :=
  { mintA := mintX, mintB := mintY, reserveA := 2, reserveB := 2,
    feeBps := 30, bump := canonicalBump }

/-- Concrete accounts for the Provide witnesses and counterexample. -/
def provideAccW : ProvideAccounts :=
  { userIsSigner := true, pool := poolKeyXY, mintA := mintX, mintB := mintY,
    vaultA := vaultX, vaultB := vaultY, mintLp := lpMintXY }

/-- Counterexample to claim C4 as stated: providing 2^33 + 2^33 into the
pool with reserves (2, 2) and LP supply 2^33 succeeds but mints 0 LP tokens,
because min(take_a * totalLP / Ra, take_b * totalLP / Rb) = 2^65 is narrowed
by a plain truncating `as u64` cast (processor.rs:401), not the claimed
minimum. -/
theorem provide_liquidity_lp_truncation_counterexample :
    (processProvideLiquidity poolTiny provideAccW (2 ^ 33) (2 ^ 33) (2 ^ 33)
      0 2 2 (2 ^ 33) (2 ^ 33) 0 0).toOption.map (fun r => r.lpMinted) =
      some 0 ∧
    min (provideTakeA 2 2 (2 ^ 33) (2 ^ 33) * 2 ^ 33 / 2)
      (provideTakeB 2 2 (2 ^ 33) (2 ^ 33) * 2 ^ 33 / 2) = 2 ^ 65 ∧
    (0 : Nat) ≠ 2 ^ 65 :=
  ⟨by decide, by decide, by decide⟩

/-- Claim C4 (amended): a successful ProvideLiquidity takes exactly
(amount_a_desired, floor(amount_a_desired * Rb / Ra)) when the proportional
intake fits below amount_b_desired and (floor(amount_b_desired * Ra / Rb),
amount_b_desired) otherwise, and increases the reserves (and vault balances)
by exactly those takes; the LP tokens minted equal
min(floor(take_a * totalLP / Ra), floor(take_b * totalLP / Rb)) provided
that minimum fits in 64 bits (otherwise the truncating `as u64` cast mints
its low 64 bits instead). -/
theorem provide_liquidity_amended (pool : LiquidityPool)
    (acc : ProvideAccounts)
    (lpSupply uA uB uLp vA vB aDes bDes aMin bMin : Nat) (r : ProvideResult)
    (hok : processProvideLiquidity pool acc lpSupply uA uB uLp vA vB
      aDes bDes aMin bMin = .ok r)
    (hT64 : lpSupply < U64)
    (hmin : min (provideTakeA pool.reserveA pool.reserveB aDes bDes *
        lpSupply / pool.reserveA)
      (provideTakeB pool.reserveA pool.reserveB aDes bDes *
        lpSupply / pool.reserveB) < U64) :
    r.pool.reserveA = pool.reserveA +
      provideTakeA pool.reserveA pool.reserveB aDes bDes ∧
    r.pool.reserveB = pool.reserveB +
      provideTakeB pool.reserveA pool.reserveB aDes bDes ∧
    r.vaultABal = vA + provideTakeA pool.reserveA pool.reserveB aDes bDes ∧
    r.vaultBBal = vB + provideTakeB pool.reserveA pool.reserveB aDes bDes ∧
    r.lpMinted = min (provideTakeA pool.reserveA pool.reserveB aDes bDes *
        lpSupply / pool.reserveA)
      (provideTakeB pool.reserveA pool.reserveB aDes bDes *
        lpSupply / pool.reserveB) := by
  obtain ⟨-, -, -, -, -, -, -, -, -, -, -, hbranch⟩ :=
    processProvideLiquidity_ok_inv pool acc lpSupply uA uB uLp vA vB
      aDes bDes aMin bMin r hok
  rcases hbranch with ⟨h11, htail⟩ | ⟨h11, hU, htail⟩
  · have hTA : provideTakeA pool.reserveA pool.reserveB aDes bDes = aDes := by
      unfold provideTakeA
      rw [if_pos h11]
    have hTB : provideTakeB pool.reserveA pool.reserveB aDes bDes =
        aDes * pool.reserveB / pool.reserveA := by
      unfold provideTakeB
      rw [if_pos h11]
    obtain ⟨-, -, -, hA64, hB64, -, -, -, -, -, -, hlp, -, -, hra, hrb, -, -,
      hva, hvb, -, -, -, -⟩ :=
      provideTail_ok_inv pool lpSupply uA uB uLp vA vB _ _ aMin bMin r htail
    rw [hTA, hTB] at hmin ⊢
    refine ⟨hra, hrb, hva, hvb, ?_⟩
    rw [hlp, provideLpAmount_eq pool lpSupply _ _ hA64 hB64 hT64]
    exact Nat.mod_eq_of_lt hmin
  · have hTA : provideTakeA pool.reserveA pool.reserveB aDes bDes =
        bDes * pool.reserveA / pool.reserveB := by
      unfold provideTakeA
      rw [if_neg h11]
    have hTB : provideTakeB pool.reserveA pool.reserveB aDes bDes = bDes := by
      unfold provideTakeB
      rw [if_neg h11]
    obtain ⟨-, -, -, hA64, hB64, -, -, -, -, -, -, hlp, -, -, hra, hrb, -, -,
      hva, hvb, -, -, -, -⟩ :=
      provideTail_ok_inv pool lpSupply uA uB uLp vA vB _ _ aMin bMin r htail
    rw [hTA, hTB] at hmin ⊢
    refine ⟨hra, hrb, hva, hvb, ?_⟩
    rw [hlp, provideLpAmount_eq pool lpSupply _ _ hA64 hB64 hT64]
    exact Nat.mod_eq_of_lt hmin

/-- Expected result of the Provide witness run: 500 A and the proportional
2000 B join reserves (1000, 4000) with supply 2000, minting 1000 LP. -/
def provideResW : ProvideResult :=
  { pool := { mintA := mintX, mintB := mintY, reserveA := 1500,
              reserveB := 6000, feeBps := 30, bump := canonicalBump },
    lpMinted := 1000, lpSupply := 3000,
    userABal := 0, userBBal := 0, userLpBal := 1000,
    vaultABal := 1500, vaultBBal := 6000 }

/-- Witness for the amended claim C4: the concrete proportional deposit. -/
theorem provide_liquidity_amended_witness :
    processProvideLiquidity poolXY provideAccW 2000 500 2000 0 1000 4000
      500 4000 0 0 = .ok provideResW ∧
    (provideResW.pool.reserveA = poolXY.reserveA +
       provideTakeA poolXY.reserveA poolXY.reserveB 500 4000 ∧
     provideResW.pool.reserveB = poolXY.reserveB +
       provideTakeB poolXY.reserveA poolXY.reserveB 500 4000 ∧
     provideResW.vaultABal = 1000 +
       provideTakeA poolXY.reserveA poolXY.reserveB 500 4000 ∧
     provideResW.vaultBBal = 4000 +
       provideTakeB poolXY.reserveA poolXY.reserveB 500 4000 ∧
     provideResW.lpMinted =
       min (provideTakeA poolXY.reserveA poolXY.reserveB 500 4000 *
           2000 / poolXY.reserveA)
         (provideTakeB poolXY.reserveA poolXY.reserveB 500 4000 *
           2000 / poolXY.reserveB)) :=
  ⟨by decide,
   provide_liquidity_amended poolXY provideAccW 2000 500 2000 0 1000 4000
     500 4000 0 0 provideResW (by decide) (by decide) (by decide)⟩

end AmmModel

namespace AmmModel

/-- Accounts for the C6 counterexample: a swap whose supplied vault_in is
not the derived associated token account of the pool. -/
def swapAccBadVault : SwapAccounts :=
  { userIsSigner := true, pool := poolKeyXY, mintIn := mintX,
    mintOut := mintY, vaultIn := .ext 99, vaultOut := vaultY,
    userAtaIn := .ext 10, userAtaOut := .ext 11 }

/-- Counterexample to claim C6 as stated: `process_swap` never compares its
vault accounts against the associated-token-account derivation — the swap
below supplies a vault_in that does not match the derived address, and the
handler succeeds instead of failing with VaultAddressMismatch. -/
theorem swap_vault_unchecked_counterexample :
    swapAccBadVault.vaultIn ≠
      getAssociatedTokenAddress swapAccBadVault.pool swapAccBadVault.mintIn ∧
    (processSwap poolXY swapAccBadVault 1000 0 500 4000 100 0).toOption.isSome
      = true ∧
    processSwap poolXY swapAccBadVault 1000 0 500 4000 100 0 ≠
      .error .vaultAddressMismatch :=
  ⟨by decide, by decide, by decide⟩

/-- Claim C6 (amended): in CreatePool, ProvideLiquidity and
WithdrawLiquidity a caller-supplied pool, vault or LP-mint account that does
not equal the address re-derived from the canonical seeds fails with the
corresponding mismatch error (given that the checks preceding it pass), and
Swap rejects a mismatched pool account likewise; Swap, however, validates
only the pool address — its vault accounts are never compared against any
derivation.  Failure leaves all state unchanged (all-or-nothing aborts). -/
theorem address_binding_amended :
    (∀ acc : CreatePoolAccounts, ∀ uA uB amountA amountB feeBps : Nat,
      acc.userIsSigner = true → acc.mintA ≠ acc.mintB →
      acc.pool ≠ (findPoolAddress (minKey acc.mintA acc.mintB)
        (maxKey acc.mintA acc.mintB) feeBps).1 →
      processCreatePool acc uA uB amountA amountB feeBps =
        .error .poolAddressMismatch) ∧
    (∀ acc : CreatePoolAccounts, ∀ uA uB amountA amountB feeBps : Nat,
      acc.userIsSigner = true → acc.mintA ≠ acc.mintB →
      acc.pool = (findPoolAddress (minKey acc.mintA acc.mintB)
        (maxKey acc.mintA acc.mintB) feeBps).1 →
      (acc.vaultA ≠ getAssociatedTokenAddress acc.pool acc.mintA ∨
       acc.vaultB ≠ getAssociatedTokenAddress acc.pool acc.mintB) →
      processCreatePool acc uA uB amountA amountB feeBps =
        .error .vaultAddressMismatch) ∧
    (∀ acc : CreatePoolAccounts, ∀ uA uB amountA amountB feeBps : Nat,
      acc.userIsSigner = true → acc.mintA ≠ acc.mintB →
      acc.pool = (findPoolAddress (minKey acc.mintA acc.mintB)
        (maxKey acc.mintA acc.mintB) feeBps).1 →
      acc.vaultA = getAssociatedTokenAddress acc.pool acc.mintA →
      acc.vaultB = getAssociatedTokenAddress acc.pool acc.mintB →
      acc.mintLp ≠ (findLpMintAddress acc.pool).1 →
      processCreatePool acc uA uB amountA amountB feeBps =
        .error .lpMintAddressMismatch) ∧
    (∀ pool : LiquidityPool, ∀ acc : ProvideAccounts,
      ∀ lpSupply uA uB uLp vA vB aDes bDes aMin bMin : Nat,
      acc.userIsSigner = true →
      acc.pool ≠ createPoolAddress (minKey pool.mintA pool.mintB)
        (maxKey pool.mintA pool.mintB) pool.feeBps pool.bump →
      processProvideLiquidity pool acc lpSupply uA uB uLp vA vB aDes bDes
        aMin bMin = .error .poolAddressMismatch) ∧
    (∀ pool : LiquidityPool, ∀ acc : ProvideAccounts,
      ∀ lpSupply uA uB uLp vA vB aDes bDes aMin bMin : Nat,
      acc.userIsSigner = true →
      acc.pool = createPoolAddress (minKey pool.mintA pool.mintB)
        (maxKey pool.mintA pool.mintB) pool.feeBps pool.bump →
      acc.mintA = pool.mintA → acc.mintB = pool.mintB →
      (acc.vaultA ≠ getAssociatedTokenAddress acc.pool acc.mintA ∨
       acc.vaultB ≠ getAssociatedTokenAddress acc.pool acc.mintB) →
      processProvideLiquidity pool acc lpSupply uA uB uLp vA vB aDes bDes
        aMin bMin = .error .vaultAddressMismatch) ∧
    (∀ pool : LiquidityPool, ∀ acc : ProvideAccounts,
      ∀ lpSupply uA uB uLp vA vB aDes bDes aMin bMin : Nat,
      acc.userIsSigner = true →
      acc.pool = createPoolAddress (minKey pool.mintA pool.mintB)
        (maxKey pool.mintA pool.mintB) pool.feeBps pool.bump →
      acc.mintA = pool.mintA → acc.mintB = pool.mintB →
      acc.vaultA = getAssociatedTokenAddress acc.pool acc.mintA →
      acc.vaultB = getAssociatedTokenAddress acc.pool acc.mintB →
      acc.mintLp ≠ (findLpMintAddress acc.pool).1 →
      processProvideLiquidity pool acc lpSupply uA uB uLp vA vB aDes bDes
        aMin bMin = .error .lpMintAddressMismatch) ∧
    (∀ pool : LiquidityPool, ∀ acc : WithdrawAccounts,
      ∀ lpSupply uA uB uLp vA vB lpIn aMin bMin : Nat,
      acc.userIsSigner = true → lpIn ≠ 0 →
      acc.pool ≠ createPoolAddress (minKey pool.mintA pool.mintB)
        (maxKey pool.mintA pool.mintB) pool.feeBps pool.bump →
      processWithdrawLiquidity pool acc lpSupply uA uB uLp vA vB lpIn
        aMin bMin = .error .poolAddressMismatch) ∧
    (∀ pool : LiquidityPool, ∀ acc : WithdrawAccounts,
      ∀ lpSupply uA uB uLp vA vB lpIn aMin bMin : Nat,
      acc.userIsSigner = true → lpIn ≠ 0 →
      acc.pool = createPoolAddress (minKey pool.mintA pool.mintB)
        (maxKey pool.mintA pool.mintB) pool.feeBps pool.bump →
      acc.mintA = pool.mintA → acc.mintB = pool.mintB →
      (acc.vaultA ≠ getAssociatedTokenAddress acc.pool acc.mintA ∨
       acc.vaultB ≠ getAssociatedTokenAddress acc.pool acc.mintB) →
      processWithdrawLiquidity pool acc lpSupply uA uB uLp vA vB lpIn
        aMin bMin = .error .vaultAddressMismatch) ∧
    (∀ pool : LiquidityPool, ∀ acc : WithdrawAccounts,
      ∀ lpSupply uA uB uLp vA vB lpIn aMin bMin : Nat,
      acc.userIsSigner = true → lpIn ≠ 0 →
      acc.pool = createPoolAddress (minKey pool.mintA pool.mintB)
        (maxKey pool.mintA pool.mintB) pool.feeBps pool.bump →
      acc.mintA = pool.mintA → acc.mintB = pool.mintB →
      acc.vaultA = getAssociatedTokenAddress acc.pool acc.mintA →
      acc.vaultB = getAssociatedTokenAddress acc.pool acc.mintB →
      acc.mintLp ≠ (findLpMintAddress acc.pool).1 →
      processWithdrawLiquidity pool acc lpSupply uA uB uLp vA vB lpIn
        aMin bMin = .error .lpMintAddressMismatch) ∧
    (∀ pool : LiquidityPool, ∀ acc : SwapAccounts,
      ∀ uIn uOut vIn vOut amountIn minOut : Nat,
      acc.userIsSigner = true → amountIn ≠ 0 →
      acc.pool ≠ createPoolAddress (minKey acc.mintIn acc.mintOut)
        (maxKey acc.mintIn acc.mintOut) pool.feeBps pool.bump →
      processSwap pool acc uIn uOut vIn vOut amountIn minOut =
        .error .poolAddressMismatch) := by
  refine ⟨?_, ?_, ?_, ?_, ?_, ?_, ?_, ?_, ?_, ?_⟩
  · intro acc uA uB amountA amountB feeBps hsig hmm hpool
    rw [processCreatePool, if_neg (by simp [hsig]), if_neg hmm, if_pos hpool]
  · intro acc uA uB amountA amountB feeBps hsig hmm hpool hv
    rw [processCreatePool, if_neg (by simp [hsig]), if_neg hmm,
      if_neg (by simp [hpool])]
    by_cases hva : acc.vaultA = getAssociatedTokenAddress acc.pool acc.mintA
    · rcases hv with hv | hv
      · exact absurd hva hv
      · rw [if_neg (by simp [hva]), if_pos hv]
    · rw [if_pos hva]
  · intro acc uA uB amountA amountB feeBps hsig hmm hpool hva hvb hlp
    rw [processCreatePool, if_neg (by simp [hsig]), if_neg hmm,
      if_neg (by simp [hpool]), if_neg (by simp [hva]),
      if_neg (by simp [hvb]), if_pos hlp]
  · intro pool acc lpSupply uA uB uLp vA vB aDes bDes aMin bMin hsig hpool
    rw [processProvideLiquidity, if_neg (by simp [hsig]), if_pos hpool]
  · intro pool acc lpSupply uA uB uLp vA vB aDes bDes aMin bMin hsig hpool
      hmA hmB hv
    rw [processProvideLiquidity, if_neg (by simp [hsig]),
      if_neg (by simp [hpool]), if_neg (by simp [hmA]),
      if_neg (by simp [hmB])]
    by_cases hva : acc.vaultA = getAssociatedTokenAddress acc.pool acc.mintA
    · rcases hv with hv | hv
      · exact absurd hva hv
      · rw [if_neg (by simp [hva]), if_pos hv]
    · rw [if_pos hva]
  · intro pool acc lpSupply uA uB uLp vA vB aDes bDes aMin bMin hsig hpool
      hmA hmB hva hvb hlp
    rw [processProvideLiquidity, if_neg (by simp [hsig]),
      if_neg (by simp [hpool]), if_neg (by simp [hmA]),
      if_neg (by simp [hmB]), if_neg (by simp [hva]),
      if_neg (by simp [hvb]), if_pos hlp]
  · intro pool acc lpSupply uA uB uLp vA vB lpIn aMin bMin hsig hlp0 hpool
    rw [processWithdrawLiquidity, if_neg (by simp [hsig]), if_neg hlp0,
      if_pos hpool]
  · intro pool acc lpSupply uA uB uLp vA vB lpIn aMin bMin hsig hlp0 hpool
      hmA hmB hv
    rw [processWithdrawLiquidity, if_neg (by simp [hsig]), if_neg hlp0,
      if_neg (by simp [hpool]), if_neg (by simp [hmA]),
      if_neg (by simp [hmB])]
    by_cases hva : acc.vaultA = getAssociatedTokenAddress acc.pool acc.mintA
    · rcases hv with hv | hv
      · exact absurd hva hv
      · rw [if_neg (by simp [hva]), if_pos hv]
    · rw [if_pos hva]
  · intro pool acc lpSupply uA uB uLp vA vB lpIn aMin bMin hsig hlp0 hpool
      hmA hmB hva hvb hlp
    rw [processWithdrawLiquidity, if_neg (by simp [hsig]), if_neg hlp0,
      if_neg (by simp [hpool]), if_neg (by simp [hmA]),
      if_neg (by simp [hmB]), if_neg (by simp [hva]),
      if_neg (by simp [hvb]), if_pos hlp]
  · intro pool acc uIn uOut vIn vOut amountIn minOut hsig ha0 hpool
    rw [processSwap, if_neg (by simp [hsig]), if_neg ha0, if_pos hpool]

/-- Witness for the amended claim C6: concrete mismatching inputs for each
handler produce the corresponding mismatch errors. -/
theorem address_binding_amended_witness :
    processCreatePool { createAccW with pool := .ext 77 } 1000 4000 1000 4000
      30 = .error .poolAddressMismatch ∧
    processProvideLiquidity poolXY { provideAccW with vaultA := .ext 78 }
      2000 500 2000 0 1000 4000 500 4000 0 0 = .error .vaultAddressMismatch ∧
    processWithdrawLiquidity poolXY { withdrawAccW with mintLp := .ext 79 }
      2000 0 0 500 1000 4000 500 0 0 = .error .lpMintAddressMismatch ∧
    processSwap poolXY { swapAccW with pool := .ext 80 } 1000 0 1000 4000
      100 0 = .error .poolAddressMismatch :=
  ⟨address_binding_amended.1 _ 1000 4000 1000 4000 30 (by decide) (by decide)
     (by decide),
   address_binding_amended.2.2.2.2.1 poolXY _ 2000 500 2000 0 1000 4000 500
     4000 0 0 (by decide) (by decide) (by decide) (by decide)
     (.inl (by decide)),
   address_binding_amended.2.2.2.2.2.2.2.2.1 poolXY _ 2000 0 0 500 1000 4000
     500 0 0 (by decide) (by decide) (by decide) (by decide) (by decide)
     (by decide) (by decide) (by decide),
   address_binding_amended.2.2.2.2.2.2.2.2.2 poolXY _ 1000 0 1000 4000 100 0
     (by decide) (by decide) (by decide)⟩

end AmmModel

namespace AmmModel

/-- Claim C7: whenever the computed take amounts (ProvideLiquidity), payout
amounts (WithdrawLiquidity) or output amount (Swap) fall below the caller's
minimums, the handler — having passed the checks that precede the slippage
guard — rejects with SlippageExceed; a rejection performs no transfer and no
reserve update (all-or-nothing aborts). -/
theorem slippage_guards :
    (∀ pool : LiquidityPool, ∀ acc : ProvideAccounts,
      ∀ lpSupply uA uB uLp vA vB aDes bDes aMin bMin : Nat,
      acc.userIsSigner = true →
      acc.pool = createPoolAddress (minKey pool.mintA pool.mintB)
        (maxKey pool.mintA pool.mintB) pool.feeBps pool.bump →
      acc.mintA = pool.mintA → acc.mintB = pool.mintB →
      acc.vaultA = getAssociatedTokenAddress acc.pool acc.mintA →
      acc.vaultB = getAssociatedTokenAddress acc.pool acc.mintB →
      acc.mintLp = (findLpMintAddress acc.pool).1 →
      aDes ≠ 0 → bDes ≠ 0 → 0 < pool.reserveA →
      pool.reserveA < U64 → pool.reserveB < U64 → aDes < U64 → bDes < U64 →
      (provideTakeA pool.reserveA pool.reserveB aDes bDes < aMin ∨
       provideTakeB pool.reserveA pool.reserveB aDes bDes < bMin) →
      processProvideLiquidity pool acc lpSupply uA uB uLp vA vB aDes bDes
        aMin bMin = .error .slippageExceed) ∧
    (∀ pool : LiquidityPool, ∀ acc : WithdrawAccounts,
      ∀ lpSupply uA uB uLp vA vB lpIn aMin bMin : Nat,
      acc.userIsSigner = true → lpIn ≠ 0 →
      acc.pool = createPoolAddress (minKey pool.mintA pool.mintB)
        (maxKey pool.mintA pool.mintB) pool.feeBps pool.bump →
      acc.mintA = pool.mintA → acc.mintB = pool.mintB →
      acc.vaultA = getAssociatedTokenAddress acc.pool acc.mintA →
      acc.vaultB = getAssociatedTokenAddress acc.pool acc.mintB →
      acc.mintLp = (findLpMintAddress acc.pool).1 →
      lpSupply ≠ 0 →
      pool.reserveA < U64 → pool.reserveB < U64 → lpIn < U64 →
      (withdrawOut lpIn pool.reserveA lpSupply < aMin ∨
       withdrawOut lpIn pool.reserveB lpSupply < bMin) →
      processWithdrawLiquidity pool acc lpSupply uA uB uLp vA vB lpIn
        aMin bMin = .error .slippageExceed) ∧
    (∀ pool : LiquidityPool, ∀ acc : SwapAccounts,
      ∀ uIn uOut vIn vOut amountIn minOut : Nat,
      acc.userIsSigner = true → amountIn ≠ 0 →
      acc.pool = createPoolAddress (minKey acc.mintIn acc.mintOut)
        (maxKey acc.mintIn acc.mintOut) pool.feeBps pool.bump →
      0 < pool.reserveA → 0 < pool.reserveB →
      pool.reserveA < U64 → pool.reserveB < U64 → amountIn < U64 →
      swapAmountOut
        (if acc.mintIn = pool.mintA then pool.reserveA else pool.reserveB)
        (if acc.mintIn = pool.mintA then pool.reserveB else pool.reserveA)
        pool.feeBps amountIn < minOut →
      processSwap pool acc uIn uOut vIn vOut amountIn minOut =
        .error .slippageExceed) := by
  refine ⟨?_, ?_, ?_⟩
  · intro pool acc lpSupply uA uB uLp vA vB aDes bDes aMin bMin hsig hpool
      hmA hmB hvA hvB hlpm ha0 hb0 hRa hRa64 hRb64 haD hbD hslip
    have hmulA : aDes * pool.reserveB < U128 := mul_lt_U128 haD hRb64
    rw [processProvideLiquidity, if_neg (by simp [hsig]),
      if_neg (by simp [hpool]), if_neg (by simp [hmA]),
      if_neg (by simp [hmB]), if_neg (by simp [hvA]),
      if_neg (by simp [hvB]), if_neg (by simp [hlpm]),
      if_neg (not_or.mpr ⟨ha0, hb0⟩), if_neg (Nat.not_le.mpr hmulA),
      if_neg (Nat.pos_iff_ne_zero.mp hRa)]
    by_cases h11 : aDes * pool.reserveB / pool.reserveA ≤ bDes
    · have hslip' : aDes < aMin ∨
          aDes * pool.reserveB / pool.reserveA < bMin := by
        unfold provideTakeA provideTakeB at hslip
        simpa only [if_pos h11] using hslip
      rw [if_pos h11, provideTail, if_pos hslip']
    · have hmulB : bDes * pool.reserveA < U128 := mul_lt_U128 hbD hRa64
      have hslip' : bDes * pool.reserveA / pool.reserveB < aMin ∨
          bDes < bMin := by
        unfold provideTakeA provideTakeB at hslip
        simpa only [if_neg h11] using hslip
      rw [if_neg h11, if_neg (Nat.not_le.mpr hmulB), provideTail,
        if_pos hslip']
  · intro pool acc lpSupply uA uB uLp vA vB lpIn aMin bMin hsig hlp0 hpool
      hmA hmB hvA hvB hlpm hT0 hRa64 hRb64 hlp64 hslip
    have hmulA : lpIn * pool.reserveA < U128 := mul_lt_U128 hlp64 hRa64
    have hmulB : lpIn * pool.reserveB < U128 := mul_lt_U128 hlp64 hRb64
    rw [processWithdrawLiquidity, if_neg (by simp [hsig]), if_neg hlp0,
      if_neg (by simp [hpool]), if_neg (by simp [hmA]),
      if_neg (by simp [hmB]), if_neg (by simp [hvA]),
      if_neg (by simp [hvB]), if_neg (by simp [hlpm]), if_neg hT0,
      if_neg (Nat.not_le.mpr hmulA), if_neg (Nat.not_le.mpr hmulB),
      withdrawTail, if_pos hslip]
  · intro pool acc uIn uOut vIn vOut amountIn minOut hsig ha0 hpool hRa hRb
      hRa64 hRb64 ha64 hslip
    rw [processSwap, if_neg (by simp [hsig]), if_neg ha0,
      if_neg (by simp [hpool])]
    by_cases hdir : acc.mintIn = pool.mintA
    · simp only [if_pos hdir] at hslip
      rw [if_pos hdir,
        if_neg (swapDen_ne_zero pool.reserveA pool.feeBps amountIn hRa
          hRa64 ha64),
        swapTail, if_pos hslip]
    · simp only [if_neg hdir] at hslip
      rw [if_neg hdir,
        if_neg (swapDen_ne_zero pool.reserveB pool.feeBps amountIn hRb
          hRb64 ha64),
        swapTail, if_pos hslip]

/-- Witness for claim C7: concrete below-minimum inputs are rejected with
SlippageExceed by all three handlers. -/
theorem slippage_guards_witness :
    processProvideLiquidity poolXY provideAccW 2000 500 2000 0 1000 4000
      500 4000 1000000 0 = .error .slippageExceed ∧
    processWithdrawLiquidity poolXY withdrawAccW 2000 0 0 500 1000 4000
      500 1000000 0 = .error .slippageExceed ∧
    processSwap poolXY swapAccW 1000 0 1000 4000 100 1000000 =
      .error .slippageExceed :=
  ⟨slippage_guards.1 poolXY provideAccW 2000 500 2000 0 1000 4000 500 4000
     1000000 0 (by decide) (by decide) (by decide) (by decide) (by decide)
     (by decide) (by decide) (by decide) (by decide) (by decide) (by decide)
     (by decide) (by decide) (by decide) (.inl (by decide)),
   slippage_guards.2.1 poolXY withdrawAccW 2000 0 0 500 1000 4000 500
     1000000 0 (by decide) (by decide) (by decide) (by decide) (by decide)
     (by decide) (by decide) (by decide) (by decide) (by decide) (by decide)
     (by decide) (.inl (by decide)),
   slippage_guards.2.2 poolXY swapAccW 1000 0 1000 4000 100 1000000
     (by decide) (by decide) (by decide) (by decide) (by decide) (by decide)
     (by decide) (by decide) (by decide)⟩

end AmmModel
